import Mathlib

/-!
# go-dte-firmador: the certificate-backed signing pipeline

A shallow embedding of the signing pipeline of the repository
(`internal/domain`, `internal/infrastructure/{adapters,cypher}`,
`internal/application/usecases`, `pkg/response`, `pkg/i18n`) and theorems about it.

Conventions of the embedding

* A Go result `(T, error)` is an `Except GoError T`: `.error e` is the Go
  return `(zero value of T, e)` and `.ok v` is `(v, nil)`.  Every error return
  of the embedded functions carries the zero value (`""`, `nil`, `false`) in
  the source.
* The `context.Context` argument is dropped: no embedded function reads it.
  Calls to `logs.*` are dropped: they do not influence any returned value.
* Go strings are Lean strings; `[]byte(s)` is the UTF-8 encoding of `s`.
* The Go standard library, go-jose and the file system are not part of the
  repository.  They are collected in `Host`, a record of total functions, and
  every embedded function that reaches one of them takes the host as its
  first argument.
-/

namespace Firmador

/-- A Go byte slice. -/
abbrev Bytes := List UInt8

/-- The conversion `[]byte(s)` of a Go string: its UTF-8 bytes. -/
def stringBytes (s : String) : Bytes :=
  s.data.flatMap String.utf8EncodeChar

/-! ## internal/domain/errors -/

/-- The struct `errors.DomainError`. -/
structure DomainError where
  Code : String
  Message : String
deriving DecidableEq, Repr

/-- The method `DomainError.Error`: `fmt.Sprintf("%s: %s", e.Code, e.Message)`. -/
def DomainError.Error (e : DomainError) : String :=
  e.Code ++ ": " ++ e.Message

def CodeCertNotFound : String := "801"
def CodeInvalid : String := "802"
def CodeNoPublicKey : String := "803"
def CodeUncatalogued : String := "804"
def CodeRequiredData : String := "809"
def CodeJSONToStrConversion : String := "810"
def CodeStrToJSONConversion : String := "811"
def CodeFileNotFound : String := "812"
def CodePasswordInvalid : String := "813"

/-- The constructor `errors.NewDomainError(msg, code)`. -/
def NewDomainError (msg : String) (code : String) : DomainError :=
  { Code := code, Message := msg }

/-- The constructor `errors.NewRequiredDataError(msg)`. -/
def NewRequiredDataError (msg : String) : DomainError :=
  { Code := CodeRequiredData, Message := msg }

/-- The constructor `errors.NewPasswordInvalidError(msg)`. -/
def NewPasswordInvalidError (msg : String) : DomainError :=
  { Code := CodePasswordInvalid, Message := msg }

/-- A value of the Go interface `error`: a `DomainError` value, or an error in
which `errors.As` finds no `DomainError` (for instance one made by
`errors.New`), of which only the text is kept. -/
inductive GoError where
  | domain (e : DomainError)
  | other (text : String)
deriving DecidableEq, Repr

/-- Equality of Go results is decidable. -/
instance instDecidableEqExcept {ε α : Type} [DecidableEq ε] [DecidableEq α] :
    DecidableEq (Except ε α) := fun a b =>
  match a, b with
  | .ok x, .ok y => if hxy : x = y then isTrue (by rw [hxy]) else isFalse (by simpa using hxy)
  | .error x, .error y =>
    if hxy : x = y then isTrue (by rw [hxy]) else isFalse (by simpa using hxy)
  | .ok _, .error _ => isFalse (by simp)
  | .error _, .ok _ => isFalse (by simp)

/-- The method `Error()` of an `error` value. -/
def GoError.Error : GoError → String
  | .domain e => e.Error
  | .other text => text

/-! ## Dynamic values -/

/-- A value of a dynamic type other than `string` and `[]byte`, identified by
the name of its type and its Go-syntax representation. -/
structure Composite where
  typeName : String
  repr : String
deriving DecidableEq, Repr

/-- A value of type `interface{}`, split the way the type switches of the
pipeline split it: the nil interface, a `string`, a `[]byte`, anything else. -/
inductive GoValue where
  | nil
  | string (v : String)
  | bytes (v : Bytes)
  | composite (v : Composite)
deriving DecidableEq, Repr

/-- The comparison `v != nil` of an interface value. -/
def GoValue.notNil : GoValue → Bool
  | .nil => false
  | _ => true

/-! ## internal/domain/models -/

/-- The struct `models.Key`. -/
structure Key where
  Algorithm : String
  Password : String
  Encoded : String
  Format : String
  KeyType : String
deriving DecidableEq, Repr

/-- The struct `rsa.PrivateKey` (crypto/rsa), reduced to its numbers. -/
structure RSAPrivateKey where
  N : Nat
  E : Nat
  D : Nat
  Primes : List Nat
deriving DecidableEq, Repr

/-- The struct `models.Certificate`.  `DecodedPrivateKey` is the pointer
`*rsa.PrivateKey`: `none` is the nil pointer. -/
structure Certificate where
  ID : String
  Active : Bool
  NIT : String
  PrivateKey : Key
  PublicKey : Key
  DecodedPrivateKey : Option RSAPrivateKey
deriving DecidableEq, Repr

/-- The zero value of `models.Key`. -/
def Key.zero : Key :=
  { Algorithm := "", Password := "", Encoded := "", Format := "", KeyType := "" }

/-- The zero value of `models.Certificate`. -/
def Certificate.zero : Certificate :=
  { ID := "", Active := false, NIT := "", PrivateKey := Key.zero, PublicKey := Key.zero,
    DecodedPrivateKey := none }

/-- The struct `models.CertificateRequest`. -/
structure CertificateRequest where
  PublicKeyPassword : String
  PrivateKeyPassword : String
  NIT : String
  DocumentName : String
  SignatureName : String
  CompactSerialized : String
  DocumentJSON : GoValue
  Document : String
  Active : Bool
  Path : String
deriving DecidableEq, Repr

/-- The method `CertificateRequest.Validate`. -/
def CertificateRequest.Validate (r : CertificateRequest) : Bool :=
  r.NIT != "" && r.PrivateKeyPassword != "" && r.DocumentJSON.notNil

/-- The method `Certificate.IsActive`. -/
def Certificate.IsActive (c : Certificate) : Bool :=
  c.Active

/-- The method `Certificate.HasPrivateKey`. -/
def Certificate.HasPrivateKey (c : Certificate) : Bool :=
  c.PrivateKey.Encoded != ""

/-! ## The host: standard library, go-jose and storage -/

/-- The outcome of `os.ReadFile(path)` followed by the test `os.IsNotExist(err)`. -/
inductive ReadFileResult where
  | content (b : Bytes)
  | notExist (errText : String)
  | failed (errText : String)
deriving DecidableEq, Repr

/-- The dynamic types of a key returned by `x509.ParsePKCS8PrivateKey`:
`*rsa.PrivateKey`, `*ecdsa.PrivateKey`, `ed25519.PrivateKey`, `*ecdh.PrivateKey`. -/
inductive PKCS8Key where
  | rsa (k : RSAPrivateKey)
  | ecdsa (curve : String) (d : Nat)
  | ed25519 (seed : Bytes)
  | ecdh (curve : String) (d : Bytes)
deriving DecidableEq, Repr

/-- The signer returned by `jose.NewSigner` for the algorithm RS512. -/
structure JoseSigner where
  key : RSAPrivateKey
deriving DecidableEq, Repr

/-- The object `*jose.JSONWebSignature` with its single signature. -/
structure JSONWebSignature where
  protectedHeader : Bytes
  payload : Bytes
  signature : Bytes
deriving DecidableEq, Repr

/-! ## encoding/base64: RawURLEncoding -/

/-- The alphabet `encodeURL` of encoding/base64. -/
def base64URLAlphabet : List Char :=
  "ABCDEFGHIJKLMNOPQRSTUVWXYZabcdefghijklmnopqrstuvwxyz0123456789-_".data

/-- The 6-bit groups that `Encoding.Encode` reads from its input: four for
every three bytes, three for two remaining bytes, two for one remaining byte. -/
def base64Sextets : Bytes → List Nat
  | a :: b :: c :: rest =>
    let val := a.toNat * 65536 + b.toNat * 256 + c.toNat
    val / 262144 % 64 :: val / 4096 % 64 :: val / 64 % 64 :: val % 64 :: base64Sextets rest
  | [a, b] =>
    let val := a.toNat * 65536 + b.toNat * 256
    [val / 262144 % 64, val / 4096 % 64, val / 64 % 64]
  | [a] =>
    let val := a.toNat * 65536
    [val / 262144 % 64, val / 4096 % 64]
  | [] => []

/-- The function `base64.RawURLEncoding.EncodeToString`: the URL alphabet, no
padding. -/
def base64RawURLEncode (src : Bytes) : String :=
  String.mk ((base64Sextets src).map fun i => base64URLAlphabet.getD i 'A')

/-- The value of a character in the URL alphabet, as in the decode map of the
encoding. -/
def base64URLValue (c : Char) : Option Nat :=
  if base64URLAlphabet.indexOf c < 64 then some (base64URLAlphabet.indexOf c) else none

/-- The bytes that `Encoding.Decode` writes for a sequence of 6-bit groups
without padding: three for every four groups, two for three remaining groups,
one for two; a single remaining group is corrupt input. -/
def base64Octets : List Nat → Option Bytes
  | i0 :: i1 :: i2 :: i3 :: rest =>
    let val := i0 * 262144 + i1 * 4096 + i2 * 64 + i3
    (base64Octets rest).map fun tail =>
      UInt8.ofNat (val / 65536) :: UInt8.ofNat (val / 256 % 256) :: UInt8.ofNat (val % 256) :: tail
  | [i0, i1, i2] =>
    let val := i0 * 262144 + i1 * 4096 + i2 * 64
    some [UInt8.ofNat (val / 65536), UInt8.ofNat (val / 256 % 256)]
  | [i0, i1] =>
    let val := i0 * 262144 + i1 * 4096
    some [UInt8.ofNat (val / 65536)]
  | [_] => none
  | [] => some []

/-- The function `base64.RawURLEncoding.DecodeString`: line breaks are
skipped, any other character outside the alphabet is corrupt input; `none` is
the error. -/
def base64RawURLDecode (s : String) : Option Bytes :=
  ((s.data.filter fun c => c ≠ '\n' ∧ c ≠ '\r').mapM base64URLValue).bind base64Octets

/-- The segments of a compact token: the text between its dots. -/
def tokenSegments : List Char → List (List Char)
  | [] => [[]]
  | c :: rest =>
    if c = '.' then [] :: tokenSegments rest
    else
      match tokenSegments rest with
      | segment :: segments => (c :: segment) :: segments
      | [] => [[c]]

/-! ## path/filepath on Unix -/

/-- The elements of a path: the text between its slashes. -/
def pathElements : List Char → List (List Char)
  | [] => [[]]
  | c :: rest =>
    if c = '/' then [] :: pathElements rest
    else
      match pathElements rest with
      | element :: elements => (c :: element) :: elements
      | [] => [[c]]

/-- One step of `filepath.Clean` on the elements kept so far, the last one
first: an empty element and `.` are dropped, `..` removes the last kept name,
is kept at the start of a relative path and is dropped at the root, and a name
is kept. -/
def cleanStep (rooted : Bool) (kept : List (List Char)) (element : List Char) :
    List (List Char) :=
  if element = [] ∨ element = ['.'] then kept
  else if element = ['.', '.'] then
    match kept with
    | last :: before => if last = ['.', '.'] then element :: kept else before
    | [] => if rooted then [] else [element]
  else element :: kept

/-- The function `filepath.Clean` for slash-separated paths without volume
name: the shortest path equivalent to the argument by lexical processing. -/
def filepathClean (path : String) : String :=
  if path = "" then "."
  else
    let rooted := path.data.head? = some '/'
    let kept := ((pathElements path.data).foldl (cleanStep rooted) []).reverse
    let body := String.mk (List.intercalate ['/'] kept)
    if rooted then "/" ++ body
    else if body = "" then "." else body

/-- The function `filepath.Join` for two elements: empty elements are
ignored, the rest is joined by a slash and cleaned. -/
def filepathJoin (a b : String) : String :=
  if a ≠ "" then filepathClean (a ++ "/" ++ b)
  else if b ≠ "" then filepathClean b
  else ""

/-- The compact serialization of go-jose for an object with one signature:
the protected header, the payload and the signature, each in unpadded
base64url, joined by dots. -/
def compactSerialization (object : JSONWebSignature) : String :=
  base64RawURLEncode object.protectedHeader ++ "." ++ base64RawURLEncode object.payload ++ "." ++
    base64RawURLEncode object.signature

/-- The functions the pipeline calls outside the repository.  A library error
is kept as its text (`err.Error()`).  Two documented facts about them are part
of the record.  `Sprintf_extra`: on a format without any verb and one string
operand, `fmt.Sprintf` reports the operand after the text as an extra
argument.  `sha512_digest`: writing to a `hash.Hash` never returns an error,
and the SHA-512 digest has 64 bytes.  `joseSign_payload`: the object returned
by `signer.Sign` holds the payload it was given.  `CompactSerialize_format`:
a successful `CompactSerialize` returns the three base64url segments of the
object joined by dots. -/
structure Host where
  /-- The call `filepath.Join(a, b)`. -/
  Join : String → String → String
  /-- The call `os.ReadFile(path)`. -/
  ReadFile : String → ReadFileResult
  /-- The call `xml.Unmarshal(content, &certificate)` on a zero certificate. -/
  xmlUnmarshal : Bytes → Except String Certificate
  /-- The call `base64.StdEncoding.DecodeString(s)`. -/
  base64Decode : String → Except String Bytes
  /-- The call `x509.ParsePKCS8PrivateKey(der)`. -/
  ParsePKCS8PrivateKey : Bytes → Except String PKCS8Key
  /-- The calls `hasher.Write(b)` and `hasher.Sum(nil)` on `sha512.New()`: the
  error of the write, or the digest. -/
  sha512 : Bytes → Except String Bytes
  /-- The call `json.Marshal(v)`. -/
  jsonMarshal : GoValue → Except String Bytes
  /-- The call `fmt.Sprintf(format, args...)`. -/
  Sprintf : String → List GoValue → String
  /-- The call `jose.NewSigner` with algorithm RS512 and the given key. -/
  NewSigner : RSAPrivateKey → Except String JoseSigner
  /-- The call `signer.Sign(payload)`. -/
  joseSign : JoseSigner → Bytes → Except String JSONWebSignature
  /-- The call `object.CompactSerialize()`. -/
  CompactSerialize : JSONWebSignature → Except String String
  Sprintf_extra : ∀ (format arg : String), '%' ∉ format.data →
    Sprintf format [GoValue.string arg] = format ++ "%!(EXTRA string=" ++ arg ++ ")"
  sha512_digest : ∀ b : Bytes, ∃ digest, sha512 b = .ok digest ∧ digest.length = 64
  joseSign_payload : ∀ signer payload object,
    joseSign signer payload = .ok object → object.payload = payload
  CompactSerialize_format : ∀ object serialized,
    CompactSerialize object = .ok serialized → serialized = compactSerialization object

/-- The method `Certificate.DecodePrivateKey`. -/
def Certificate.DecodePrivateKey (h : Host) (c : Certificate) : Except String Bytes :=
  h.base64Decode c.PrivateKey.Encoded

/-! ## internal/infrastructure/cypher: KeyProcessor -/

/-- The table `hextable` of encoding/hex. -/
def hextable : List Char := "0123456789abcdef".data

/-- The function `hex.EncodeToString`: two lowercase digits per byte, the
high nibble first. -/
def hexEncodeToString (src : Bytes) : String :=
  String.mk (src.flatMap fun v =>
    [hextable.getD (v.toNat / 16) '0', hextable.getD (v.toNat % 16) '0'])

/-- The method `KeyProcessor.BytesToPrivateKey`. -/
def KeyProcessor.BytesToPrivateKey (h : Host) (bytes : Bytes) : Except GoError Certificate :=
  match h.ParsePKCS8PrivateKey bytes with
  | .error errText => .error (.domain (NewDomainError errText CodeUncatalogued))
  | .ok priv =>
    match priv with
    | .rsa rsaPriv => .ok { Certificate.zero with DecodedPrivateKey := some rsaPriv }
    | _ => .error (.domain (NewDomainError "key is not RSA type" CodeInvalid))

/-- The method `KeyProcessor.HashPassword`. -/
def KeyProcessor.HashPassword (h : Host) (password : String) : Except GoError String :=
  match h.sha512 (stringBytes password) with
  | .error _ => .error (.other "failed to hash password")
  | .ok hashedBytes => .ok (hexEncodeToString hashedBytes)

/-- The method `KeyProcessor.VerifyPassword`. -/
def KeyProcessor.VerifyPassword (h : Host) (plainPassword hashedPassword : String) :
    Except GoError Bool :=
  match KeyProcessor.HashPassword h plainPassword with
  | .error err => .error err
  | .ok hashedInput => .ok (hashedInput == hashedPassword)

/-! ## internal/infrastructure/cypher: JWSSigner -/

/-- The method `JWSSigner.Sign`.  The Go string `documentStr` is kept as its
bytes, so that `[]byte(documentStr)` is the identity. -/
def JWSSigner.Sign (h : Host) (certificate : Certificate) (documentData : GoValue) :
    Except GoError String :=
  match certificate.DecodedPrivateKey with
  | none => .error (.domain (NewDomainError "private key not available" CodeInvalid))
  | some key =>
    let documentStr : Except GoError Bytes :=
      match documentData with
      | .string v => .ok (stringBytes v)
      | .bytes v => .ok v
      | _ =>
        match h.jsonMarshal documentData with
        | .error errText => .error (.domain (NewDomainError errText CodeJSONToStrConversion))
        | .ok jsonData => .ok jsonData
    match documentStr with
    | .error err => .error err
    | .ok documentStr =>
      match h.NewSigner key with
      | .error errText => .error (.domain (NewDomainError errText CodeUncatalogued))
      | .ok signer =>
        match h.joseSign signer documentStr with
        | .error errText => .error (.domain (NewDomainError errText CodeUncatalogued))
        | .ok object =>
          match h.CompactSerialize object with
          | .error errText => .error (.domain (NewDomainError errText CodeUncatalogued))
          | .ok serialized => .ok serialized

/-! ## internal/infrastructure/adapters: FileCertificateRepository -/

/-- The struct `adapters.FileCertificateRepository`; its `keyProcessor` field
is the empty struct `cypher.KeyProcessor`. -/
structure FileCertificateRepository where
  basePath : String
deriving DecidableEq, Repr

/-- The method `FileCertificateRepository.GetByNIT`. -/
def FileCertificateRepository.GetByNIT (h : Host) (r : FileCertificateRepository)
    (nit : String) : Except GoError Certificate :=
  let filePath := h.Join r.basePath (nit ++ ".crt")
  match h.ReadFile filePath with
  | .notExist _ => .error (.domain (NewDomainError filePath CodeFileNotFound))
  | .failed errText => .error (.domain (NewDomainError errText CodeUncatalogued))
  | .content content =>
    match h.xmlUnmarshal content with
    | .error errText => .error (.domain (NewDomainError errText CodeUncatalogued))
    | .ok certificate =>
      if !certificate.IsActive then
        .error (.domain (NewDomainError "cert_not_found" CodeCertNotFound))
      else if !certificate.HasPrivateKey then
        .error (.domain (NewDomainError "invalid" CodeInvalid))
      else
        match certificate.DecodePrivateKey h with
        | .error errText => .error (.domain (NewDomainError errText CodeJSONToStrConversion))
        | .ok decodedBytes =>
          match KeyProcessor.BytesToPrivateKey h decodedBytes with
          | .error err => .error (.domain (NewDomainError err.Error CodeNoPublicKey))
          | .ok certWithKey =>
            .ok { certificate with DecodedPrivateKey := certWithKey.DecodedPrivateKey }

/-- The method `FileCertificateRepository.VerifyPassword`. -/
def FileCertificateRepository.VerifyPassword (h : Host) (_r : FileCertificateRepository)
    (certificate : Certificate) (password : String) : Except GoError Bool :=
  match KeyProcessor.VerifyPassword h password certificate.PrivateKey.Password with
  | .error err => .error (.domain (NewDomainError err.Error CodeUncatalogued))
  | .ok valid => .ok valid

/-! ## internal/domain/ports -/

/-- The interface `ports.CertificateRepository`. -/
structure CertificateRepository where
  GetByNIT : String → Except GoError Certificate
  VerifyPassword : Certificate → String → Except GoError Bool

/-- The interface `ports.DocumentSigner`. -/
structure DocumentSigner where
  Sign : Certificate → GoValue → Except GoError String

/-- A call made on a collaborator, with its arguments.  Recording the calls is
the only addition of the embedding to the source: `calls` of a `Run` lists, in
order, the collaborator methods a function invoked. -/
inductive Call where
  | GetByNIT (nit : String)
  | VerifyPassword (certificate : Certificate) (password : String)
  | Sign (certificate : Certificate) (documentData : GoValue)
  | SignDocument (request : CertificateRequest)
deriving DecidableEq, Repr

/-- A result together with the collaborator calls made to compute it. -/
structure Run (α : Type) where
  calls : List Call
  result : α

/-! ## internal/domain/services -/

/-- The struct `services.SigningService`. -/
structure SigningService where
  certRepo : CertificateRepository
  documentSigner : DocumentSigner

/-- The method `SigningService.SignDocument`. -/
def SigningService.SignDocument (h : Host) (s : SigningService)
    (request : CertificateRequest) : Run (Except GoError String) :=
  if !request.Validate then
    ⟨[], .error (.domain (NewRequiredDataError "required_data"))⟩
  else
    match s.certRepo.GetByNIT request.NIT with
    | .error err => ⟨[.GetByNIT request.NIT], .error err⟩
    | .ok certificate =>
      match s.certRepo.VerifyPassword certificate request.PrivateKeyPassword with
      | .error err =>
        ⟨[.GetByNIT request.NIT, .VerifyPassword certificate request.PrivateKeyPassword],
          .error err⟩
      | .ok valid =>
        if !valid then
          ⟨[.GetByNIT request.NIT, .VerifyPassword certificate request.PrivateKeyPassword],
            .error (.domain (NewPasswordInvalidError
              (h.Sprintf "password_invalid" [.string request.NIT])))⟩
        else
          let documentData : Except String Bytes :=
            match request.DocumentJSON with
            | .string v => .ok (stringBytes v)
            | .bytes v => .ok v
            | _ => h.jsonMarshal request.DocumentJSON
          match documentData with
          | .error _ =>
            ⟨[.GetByNIT request.NIT, .VerifyPassword certificate request.PrivateKeyPassword],
              .error (.domain
                (NewDomainError "json_to_string_conversion" CodeJSONToStrConversion))⟩
          | .ok documentData =>
            match s.documentSigner.Sign certificate (.bytes documentData) with
            | .error err =>
              ⟨[.GetByNIT request.NIT, .VerifyPassword certificate request.PrivateKeyPassword,
                .Sign certificate (.bytes documentData)], .error err⟩
            | .ok signedJWS =>
              ⟨[.GetByNIT request.NIT, .VerifyPassword certificate request.PrivateKeyPassword,
                .Sign certificate (.bytes documentData)], .ok signedJWS⟩

/-! ## pkg/response -/

/-- The struct `response.ErrorBody`; the message is always a string here. -/
structure ErrorBody where
  Code : String
  Message : String
deriving DecidableEq, Repr

/-- The field `Body` of a response: the data of a success, or an `ErrorBody`. -/
inductive ResponseBody where
  | data (v : String)
  | errorBody (b : ErrorBody)
deriving DecidableEq, Repr

/-- The struct `response.Response`. -/
structure Response where
  Status : String
  Body : ResponseBody
deriving DecidableEq, Repr

/-- The constructor `response.NewSuccessResponse`. -/
def NewSuccessResponse (data : String) : Response :=
  { Status := "OK", Body := .data data }

/-- The constructor `response.NewErrorResponse`. -/
def NewErrorResponse (code : String) (message : String) : Response :=
  { Status := "error", Body := .errorBody { Code := code, Message := message } }

/-! ## pkg/i18n -/

/-- The struct `i18n.Translator`: the catalogue `messages[locale][key]` and the
current locale.  A locale without a catalogue maps to `none` (a nil map). -/
structure Translator where
  messages : String → Option (String → Option String)
  locale : String

/-- The method `Translator.Translate`. -/
def Translator.Translate (h : Host) (t : Translator) (key : String) (args : List GoValue) :
    String :=
  match (t.messages t.locale).bind (fun catalogue => catalogue key) with
  | none => key
  | some msg => if args.length > 0 then h.Sprintf msg args else msg

/-- The method `Translator.T`. -/
def Translator.T (h : Host) (t : Translator) (key : String) (args : List GoValue) : String :=
  t.Translate h key args

/-! ## internal/application/usecases -/

/-- The struct `usecases.DocumentSigningUseCase`; `signingService` is a value
of the interface `ports.SigningService`. -/
structure DocumentSigningUseCase where
  signingService : CertificateRequest → Run (Except GoError String)
  translator : Translator

/-- The struct `usecases.DocumentSigningInput`. -/
structure DocumentSigningInput where
  PublicKeyPassword : String
  PrivateKeyPassword : String
  NIT : String
  DocumentName : String
  SignatureName : String
  CompactSerialized : String
  DocumentJSON : GoValue
  Document : String
  Active : Bool
  Path : String
deriving DecidableEq, Repr

/-- The method `DocumentSigningUseCase.validateInput`. -/
def DocumentSigningUseCase.validateInput (input : DocumentSigningInput) : Bool :=
  input.NIT != "" && input.PrivateKeyPassword != "" && input.DocumentJSON.notNil

/-- The method `DocumentSigningUseCase.createErrorResponse`; `errors.As` finds
a `DomainError` exactly in an error that is one. -/
def DocumentSigningUseCase.createErrorResponse (h : Host) (uc : DocumentSigningUseCase)
    (err : GoError) : Response :=
  match err with
  | .other _ => NewErrorResponse "500" (uc.translator.T h "internal_server_error" [])
  | .domain domainErr =>
    let translatedMsg := uc.translator.T h domainErr.Message []
    let translatedMsg :=
      if domainErr.Code == CodePasswordInvalid then
        h.Sprintf translatedMsg [.string domainErr.Message]
      else translatedMsg
    NewErrorResponse domainErr.Code translatedMsg

/-- The method `DocumentSigningUseCase.Execute`.  Its Go error result is nil
on every path, so the result is the response alone. -/
def DocumentSigningUseCase.Execute (h : Host) (uc : DocumentSigningUseCase)
    (input : DocumentSigningInput) : Run Response :=
  if !DocumentSigningUseCase.validateInput input then
    let err := NewRequiredDataError (uc.translator.T h "required_data" [])
    ⟨[], uc.createErrorResponse h (.domain err)⟩
  else
    let request : CertificateRequest :=
      { PublicKeyPassword := input.PublicKeyPassword
        PrivateKeyPassword := input.PrivateKeyPassword
        NIT := input.NIT
        DocumentName := input.DocumentName
        SignatureName := input.SignatureName
        CompactSerialized := input.CompactSerialized
        DocumentJSON := input.DocumentJSON
        Document := input.Document
        Active := input.Active
        Path := input.Path }
    let signed := uc.signingService request
    match signed.result with
    | .error err => ⟨.SignDocument request :: signed.calls, uc.createErrorResponse h err⟩
    | .ok jws => ⟨.SignDocument request :: signed.calls, NewSuccessResponse jws⟩

/-- The code carried by an error envelope; `none` for a success envelope. -/
def Response.errorCode (r : Response) : Option String :=
  match r.Body with
  | .errorBody b => some b.Code
  | .data _ => none

/-- The bytes that step 5 of `SignDocument` computes from `DocumentJSON`, under
a name of their own so that theorems can refer to them. -/
def documentBytes (h : Host) (documentJSON : GoValue) : Except String Bytes :=
  match documentJSON with
  | .string v => .ok (stringBytes v)
  | .bytes v => .ok v
  | _ => h.jsonMarshal documentJSON

/-- The request that step 2 of `Execute` builds from its input, under a name
of its own so that theorems can refer to it. -/
def requestOf (input : DocumentSigningInput) : CertificateRequest :=
  { PublicKeyPassword := input.PublicKeyPassword
    PrivateKeyPassword := input.PrivateKeyPassword
    NIT := input.NIT
    DocumentName := input.DocumentName
    SignatureName := input.SignatureName
    CompactSerialized := input.CompactSerialized
    DocumentJSON := input.DocumentJSON
    Document := input.Document
    Active := input.Active
    Path := input.Path }

/-- The Go results `(*response.Response, error)` of `Execute`: the response,
and the error, which is nil in each of the three return statements. -/
def DocumentSigningUseCase.executeResults (h : Host) (uc : DocumentSigningUseCase)
    (input : DocumentSigningInput) : Response × Option GoError :=
  ((uc.Execute h input).result, none)

/-- The invariant of the specification (section 3): a signing request is
well-formed when the taxpayer identifier is not empty, the credential is not
empty and the document payload is present. -/
def SpecWellFormed (taxpayerId credential : String) (documentPayload : GoValue) : Prop :=
  taxpayerId ≠ "" ∧ credential ≠ "" ∧ documentPayload ≠ GoValue.nil

/-! ## internal/infrastructure/handlers -/

/-- The part of net/http and encoding/json that the handler uses on the way
in: `json.NewDecoder(r.Body).Decode(&input)` on the body of the request. -/
structure WebHost where
  decodeInput : Bytes → Except String DocumentSigningInput

/-- What the handler encodes into the response: the map with the key `error`,
or the response of the use case. -/
inductive ReplyBody where
  | errorText (text : String)
  | response (resp : Response)
deriving DecidableEq, Repr

/-- What the handler writes: the content type, the status code given to
`WriteHeader` and the value encoded as JSON. -/
structure HTTPReply where
  contentType : String
  statusCode : Nat
  body : ReplyBody
deriving DecidableEq, Repr

def StatusOK : Nat := 200
def StatusBadRequest : Nat := 400
def StatusInternalServerError : Nat := 500

/-- The struct `handlers.SignHandler`. -/
structure SignHandler where
  path : String
  documentSigningUseCase : DocumentSigningUseCase

/-- The method `SignHandler.Handle`, on the body of the request. -/
def SignHandler.Handle (h : Host) (w : WebHost) (sh : SignHandler) (body : Bytes) : HTTPReply :=
  match w.decodeInput body with
  | .error _ =>
    { contentType := "application/json", statusCode := StatusBadRequest,
      body := .errorText "Invalid request format" }
  | .ok input =>
    match sh.documentSigningUseCase.executeResults h input with
    | (_, some _) =>
      { contentType := "application/json", statusCode := StatusInternalServerError,
        body := .errorText "Internal server error" }
    | (resp, none) =>
      let statusCode := if resp.Status != "OK" then StatusBadRequest else StatusOK
      { contentType := "application/json", statusCode := statusCode, body := .response resp }

/-! ## configs: the composed pipeline -/

/-- The file repository as a `ports.CertificateRepository`. -/
def FileCertificateRepository.asRepository (h : Host) (r : FileCertificateRepository) :
    CertificateRepository :=
  { GetByNIT := r.GetByNIT h, VerifyPassword := r.VerifyPassword h }

/-- The JWS signer as a `ports.DocumentSigner`. -/
def JWSSigner.asSigner (h : Host) : DocumentSigner :=
  { Sign := JWSSigner.Sign h }

/-- The service built by `initServerDependencies`: `NewSigningService` over
the file repository and the JWS signer. -/
def fileSigningService (h : Host) (r : FileCertificateRepository) : SigningService :=
  { certRepo := r.asRepository h, documentSigner := JWSSigner.asSigner h }

/-- The use case built by `initServerDependencies`: `NewDocumentSigningUseCase`
over the service above and a translator. -/
def fileSigningUseCase (h : Host) (r : FileCertificateRepository) (t : Translator) :
    DocumentSigningUseCase :=
  { signingService := (fileSigningService h r).SignDocument h, translator := t }

/-! ## A sample host

A small host on which the embedding can be evaluated: a store with four
records under the directory `certs`, and simple stand-ins for the library
functions. -/

/-- An RSA key of the sample host. -/
def sampleKey : RSAPrivateKey :=
  { N := 3233, E := 17, D := 413, Primes := [61, 53] }

/-- The digest function of the sample host: the input, cut or filled with
zero bytes to 64 bytes. -/
def sampleDigest (b : Bytes) : Bytes :=
  (b ++ List.replicate 64 0).take 64

/-- The record stored for the taxpayer 00000000: active, with an RSA key and
the digest of the credential `secret`. -/
def sampleRecord : Certificate :=
  { ID := "1", Active := true, NIT := "00000000",
    PrivateKey :=
      { Algorithm := "RSA", Password := hexEncodeToString (sampleDigest (stringBytes "secret")),
        Encoded := "UlNB", Format := "PKCS#8", KeyType := "PRIVATE" },
    PublicKey := Key.zero, DecodedPrivateKey := none }

/-- The record stored for the taxpayer 11111111: not active. -/
def sampleInactive : Certificate :=
  { sampleRecord with ID := "2", Active := false, NIT := "11111111" }

/-- The record stored for the taxpayer 22222222: active, no key bytes. -/
def sampleNoKey : Certificate :=
  { sampleRecord with ID := "3", NIT := "22222222",
                      PrivateKey := { sampleRecord.PrivateKey with Encoded := "" } }

/-- The record stored for the taxpayer 33333333: active, with an EC key. -/
def sampleEC : Certificate :=
  { sampleRecord with ID := "4", NIT := "33333333",
                      PrivateKey := { sampleRecord.PrivateKey with Encoded := "RUM=" } }

/-- The record stored for the taxpayer 44444444: active, with key bytes that
are no PKCS#8 key. -/
def sampleBadKey : Certificate :=
  { sampleRecord with ID := "5", NIT := "44444444",
                      PrivateKey := { sampleRecord.PrivateKey with Encoded := "QUJD" } }

/-- The record stored for the taxpayer 55555555: active, with key text that is
no base64. -/
def sampleBadBase64 : Certificate :=
  { sampleRecord with ID := "6", NIT := "55555555",
                      PrivateKey := { sampleRecord.PrivateKey with Encoded := "%%%" } }

/-- The store of the sample host: seven files in the directory `certs`, the
last of them no XML, and a copy of the first record in the directory `backup`. -/
def sampleReadFile (path : String) : ReadFileResult :=
  if path = "certs/00000000.crt" then .content [1]
  else if path = "certs/11111111.crt" then .content [2]
  else if path = "certs/22222222.crt" then .content [3]
  else if path = "certs/33333333.crt" then .content [4]
  else if path = "certs/44444444.crt" then .content [5]
  else if path = "certs/55555555.crt" then .content [6]
  else if path = "certs/66666666.crt" then .content [7]
  else if path = "backup/00000000.crt" then .content [1]
  else .notExist ("open " ++ path ++ ": no such file or directory")

/-- The record decoder of the sample host. -/
def sampleUnmarshal (content : Bytes) : Except String Certificate :=
  if content = [1] then .ok sampleRecord
  else if content = [2] then .ok sampleInactive
  else if content = [3] then .ok sampleNoKey
  else if content = [4] then .ok sampleEC
  else if content = [5] then .ok sampleBadKey
  else if content = [6] then .ok sampleBadBase64
  else .error "XML syntax error on line 1: unexpected EOF"

/-- The base64 decoder of the sample host, defined on three texts. -/
def sampleBase64 (text : String) : Except String Bytes :=
  if text = "UlNB" then .ok [82, 83, 65]
  else if text = "RUM=" then .ok [69, 67]
  else if text = "QUJD" then .ok [65, 66, 67]
  else .error "illegal base64 data at input byte 0"

/-- The key parser of the sample host. -/
def sampleParseKey (der : Bytes) : Except String PKCS8Key :=
  if der = [82, 83, 65] then .ok (.rsa sampleKey)
  else if der = [69, 67] then .ok (.ecdsa "P-256" 7)
  else .error "x509: failed to parse private key"

/-- The JSON encoder of the sample host: a channel cannot be encoded. -/
def sampleMarshal (v : GoValue) : Except String Bytes :=
  match v with
  | .nil => .ok (stringBytes "null")
  | .string s => .ok (stringBytes ("\"" ++ s ++ "\""))
  | .bytes _ => .ok (stringBytes "\"\"")
  | .composite c =>
    if c.typeName = "chan int" then .error "json: unsupported type: chan int"
    else .ok (stringBytes c.repr)

/-- The type name `fmt` reports for an operand. -/
def sampleOperandType : GoValue → String
  | .nil => "<nil>"
  | .string _ => "string"
  | .bytes _ => "[]uint8"
  | .composite c => c.typeName

/-- The text `fmt` prints for an operand under the verb `v`. -/
def sampleOperandText : GoValue → String
  | .nil => "<nil>"
  | .string s => s
  | .bytes b => "[" ++ " ".intercalate (b.map fun v => toString v.toNat) ++ "]"
  | .composite c => c.repr

/-- One operand under a verb: a string under `s` or `v` is copied, any operand
under `v` is printed, and every other pair is reported as a bad verb. -/
def sampleOperand (verb : Char) (a : GoValue) : List Char :=
  match a with
  | .string s =>
    if verb = 's' ∨ verb = 'v' then s.data
    else ("%!" ++ verb.toString ++ "(string=" ++ s ++ ")").data
  | .nil => if verb = 'v' then "<nil>".data else ("%!" ++ verb.toString ++ "(<nil>)").data
  | _ =>
    if verb = 'v' then (sampleOperandText a).data
    else ("%!" ++ verb.toString ++ "(" ++ sampleOperandType a ++ "=" ++
      sampleOperandText a ++ ")").data

/-- The report of the operands that no verb consumed. -/
def sampleExtra (args : List GoValue) : List Char :=
  match args with
  | [] => []
  | _ => ("%!(EXTRA " ++ ", ".intercalate
      (args.map fun a => match a with
        | .nil => "<nil>"
        | _ => sampleOperandType a ++ "=" ++ sampleOperandText a) ++ ")").data

/-- The loop of `fmt.Sprintf` for directives made of a percent sign and one
verb character (no flag, width, precision or argument index). -/
def sampleFormat : List Char → List GoValue → List Char
  | [], args => sampleExtra args
  | c :: rest, args =>
    if c = '%' then
      match rest with
      | [] => "%!(NOVERB)".data ++ sampleExtra args
      | verb :: rest' =>
        if verb = '%' then '%' :: sampleFormat rest' args
        else
          match args with
          | [] => ("%!" ++ verb.toString ++ "(MISSING)").data ++ sampleFormat rest' []
          | a :: args' => sampleOperand verb a ++ sampleFormat rest' args'
    else c :: sampleFormat rest args

/-- The formatter of the sample host. -/
def sampleSprintf (format : String) (args : List GoValue) : String :=
  String.mk (sampleFormat format.data args)

/-- The sample host. -/
def sampleHost : Host :=
  { Join := filepathJoin
    ReadFile := sampleReadFile
    xmlUnmarshal := sampleUnmarshal
    base64Decode := sampleBase64
    ParsePKCS8PrivateKey := sampleParseKey
    sha512 := fun b => .ok (sampleDigest b)
    jsonMarshal := sampleMarshal
    Sprintf := sampleSprintf
    NewSigner := fun key => .ok { key := key }
    joseSign := fun signer payload =>
      .ok { protectedHeader := stringBytes "\x7b\"alg\":\"RS512\"\x7d", payload := payload,
            signature := [signer.key.E.toUInt8, signer.key.D.toUInt8] }
    CompactSerialize := fun object => .ok (compactSerialization object)
    Sprintf_extra := fun format arg hplain => by
      have hcopy : ∀ cs : List Char, '%' ∉ cs →
          sampleFormat cs [GoValue.string arg] = cs ++ sampleExtra [GoValue.string arg] := by
        intro cs
        induction cs with
        | nil => intro _; simp [sampleFormat]
        | cons c rest ih =>
          intro hcs
          have hc : c ≠ '%' := fun hc => hcs (by simp [hc])
          have hrest : '%' ∉ rest := fun hr => hcs (by simp [hr])
          rw [sampleFormat.eq_def]
          simp [hc, ih hrest]
      rw [sampleSprintf, hcopy _ hplain]
      apply String.ext
      simp [sampleExtra, sampleOperandType, sampleOperandText, String.data_append,
        String.intercalate, String.intercalate.go]
    sha512_digest := fun b => ⟨sampleDigest b, rfl, by simp [sampleDigest]⟩
    joseSign_payload := fun _ _ _ hsign => by
      rw [← Except.ok.inj hsign]
    CompactSerialize_format := fun _ _ hserial => (Except.ok.inj hserial).symm }

/-- The repository of the sample host. -/
def sampleRepository : FileCertificateRepository :=
  { basePath := "certs" }

/-- A translator with a Spanish catalogue of two messages. -/
def sampleTranslator : Translator :=
  { messages := fun locale =>
      if locale = "es" then
        some fun key =>
          if key = "required_data" then some "Datos requeridos"
          else if key = "cert_not_found" then some "Certificado no encontrado"
          else none
      else none
    locale := "es" }

/-- A well-formed signing input for the sample host. -/
def sampleInput (nit credential : String) : DocumentSigningInput :=
  { PublicKeyPassword := "", PrivateKeyPassword := credential, NIT := nit,
    DocumentName := "", SignatureName := "", CompactSerialized := "",
    DocumentJSON := .string "doc", Document := "", Active := true, Path := "" }

/-- The request that `Execute` builds from `sampleInput`. -/
def sampleRequest (nit credential : String) : CertificateRequest :=
  { PublicKeyPassword := "", PrivateKeyPassword := credential, NIT := nit,
    DocumentName := "", SignatureName := "", CompactSerialized := "",
    DocumentJSON := .string "doc", Document := "", Active := true, Path := "" }

/-- A repository double: one certificate, whose credential is `secret`. -/
def stubRepository : CertificateRepository :=
  { GetByNIT := fun nit =>
      if nit = "00000000" then .ok sampleRecord
      else .error (.domain (NewDomainError "cert_not_found" CodeCertNotFound))
    VerifyPassword := fun _ password => .ok (password == "secret") }

/-- A signer double: it returns a fixed token. -/
def stubSigner : DocumentSigner :=
  { Sign := fun _ _ => .ok "aGVhZGVy.cGF5bG9hZA.c2ln" }

/-- The service over the two doubles. -/
def stubService : SigningService :=
  { certRepo := stubRepository, documentSigner := stubSigner }

/-- A second host: the sample host with a signer that produces other
signature bytes for the same key and payload. -/
def sampleHostAlt : Host :=
  { sampleHost with
    joseSign := fun signer payload =>
      .ok { protectedHeader := stringBytes "\x7b\"alg\":\"RS512\"\x7d", payload := payload,
            signature := [signer.key.D.toUInt8, signer.key.E.toUInt8, 7] }
    joseSign_payload := fun _ _ _ hsign => by
      rw [← Except.ok.inj hsign] }

/-- A third host: the sample host on a store where a path that runs through
the regular file `certs/00000000.crt` is asked for; opening it fails, and the
failure is not one that `os.IsNotExist` reports. -/
def sampleHostNotDir : Host :=
  { sampleHost with
    ReadFile := fun path =>
      if path = "certs/00000000.crt/1.crt" then
        .failed "open certs/00000000.crt/1.crt: not a directory"
      else sampleReadFile path }

/-- The request decoder of the sample host: three bodies are JSON. -/
def sampleWebHost : WebHost :=
  { decodeInput := fun body =>
      if body = [1] then .ok (sampleInput "00000000" "secret")
      else if body = [2] then .ok (sampleInput "00000000" "wrong")
      else if body = [3] then .ok (sampleInput "00000000" "")
      else .error "unexpected end of JSON input" }

/-- The handler built by `initServerDependencies` on the sample host. -/
def sampleHandler : SignHandler :=
  { path := "/signer",
    documentSigningUseCase := fileSigningUseCase sampleHost sampleRepository sampleTranslator }

/-! ## Shared lemmas -/

theorem notNil_iff (v : GoValue) : v.notNil = true ↔ v ≠ GoValue.nil := by
  cases v <;> simp [GoValue.notNil]

theorem validate_iff (request : CertificateRequest) :
    request.Validate = true ↔
      request.NIT ≠ "" ∧ request.PrivateKeyPassword ≠ "" ∧ request.DocumentJSON ≠ GoValue.nil := by
  simp [CertificateRequest.Validate, notNil_iff, and_assoc]

theorem validate_false_iff (request : CertificateRequest) :
    request.Validate = false ↔
      (request.NIT = "" ∨ request.PrivateKeyPassword = "" ∨ request.DocumentJSON = GoValue.nil) := by
  rw [← Bool.not_eq_true, validate_iff]
  tauto

/-! ## Request validation -/

/-- C1: a request with an empty NIT, an empty PrivateKeyPassword or a nil
DocumentJSON gets the RequiredData error (code 809) from SignDocument, which
then calls none of GetByNIT, VerifyPassword and Sign; for every other request
the first thing SignDocument does is to call GetByNIT on the NIT of the request. -/
theorem signDocument_validates_first (h : Host) (s : SigningService)
    (request : CertificateRequest) :
    ((request.NIT = "" ∨ request.PrivateKeyPassword = "" ∨ request.DocumentJSON = GoValue.nil) →
      s.SignDocument h request =
        ⟨[], .error (.domain { Code := "809", Message := "required_data" })⟩) ∧
    (¬ (request.NIT = "" ∨ request.PrivateKeyPassword = "" ∨
          request.DocumentJSON = GoValue.nil) →
      (s.SignDocument h request).calls.head? = some (Call.GetByNIT request.NIT)) := by
  constructor
  · intro hbad
    have hv : request.Validate = false := (validate_false_iff request).mpr hbad
    simp [SigningService.SignDocument, hv, NewRequiredDataError, CodeRequiredData]
  · intro hgood
    have hv : request.Validate = true := by
      rcases hvf : request.Validate with _ | _
      · exact absurd ((validate_false_iff request).mp hvf) hgood
      · rfl
    simp only [SigningService.SignDocument, hv, Bool.not_true, Bool.false_eq_true, if_false]
    repeat' split
    all_goals rfl

/-- A witness of C1 on the service doubles: a request without credential is
refused with no call, a well-formed one starts with GetByNIT. -/
theorem signDocument_validates_first_witness :
    stubService.SignDocument sampleHost (sampleRequest "00000000" "") =
        ⟨[], .error (.domain { Code := "809", Message := "required_data" })⟩ ∧
    (stubService.SignDocument sampleHost (sampleRequest "00000000" "secret")).calls.head? =
        some (Call.GetByNIT "00000000") :=
  ⟨(signDocument_validates_first sampleHost stubService (sampleRequest "00000000" "")).1
      (by decide),
   (signDocument_validates_first sampleHost stubService (sampleRequest "00000000" "secret")).2
      (by decide)⟩

/-! ## Authentication -/

theorem signDocument_of_not_verified (h : Host) (s : SigningService)
    (request : CertificateRequest) (certificate : Certificate)
    (hv : request.Validate = true)
    (hget : s.certRepo.GetByNIT request.NIT = .ok certificate)
    (hpw : s.certRepo.VerifyPassword certificate request.PrivateKeyPassword = .ok false) :
    s.SignDocument h request =
      ⟨[.GetByNIT request.NIT, .VerifyPassword certificate request.PrivateKeyPassword],
        .error (.domain { Code := "813",
                          Message := "password_invalid%!(EXTRA string=" ++ request.NIT ++ ")" })⟩ := by
  have hfmt : h.Sprintf "password_invalid" [GoValue.string request.NIT] =
      "password_invalid%!(EXTRA string=" ++ request.NIT ++ ")" :=
    h.Sprintf_extra "password_invalid" request.NIT (by decide)
  simp [SigningService.SignDocument, hv, hget, hpw, hfmt, NewPasswordInvalidError,
    CodePasswordInvalid]

theorem signDocument_of_malformed (h : Host) (s : SigningService)
    (request : CertificateRequest) (hv : request.Validate = false) :
    s.SignDocument h request =
      ⟨[], .error (.domain { Code := "809", Message := "required_data" })⟩ := by
  simp [SigningService.SignDocument, hv, NewRequiredDataError, CodeRequiredData]

theorem signDocument_of_getByNIT_error (h : Host) (s : SigningService)
    (request : CertificateRequest) (err : GoError) (hv : request.Validate = true)
    (hget : s.certRepo.GetByNIT request.NIT = .error err) :
    s.SignDocument h request = ⟨[.GetByNIT request.NIT], .error err⟩ := by
  simp [SigningService.SignDocument, hv, hget]

theorem signDocument_of_verify_error (h : Host) (s : SigningService)
    (request : CertificateRequest) (certificate : Certificate) (err : GoError)
    (hv : request.Validate = true)
    (hget : s.certRepo.GetByNIT request.NIT = .ok certificate)
    (hpw : s.certRepo.VerifyPassword certificate request.PrivateKeyPassword = .error err) :
    s.SignDocument h request =
      ⟨[.GetByNIT request.NIT, .VerifyPassword certificate request.PrivateKeyPassword],
        .error err⟩ := by
  simp [SigningService.SignDocument, hv, hget, hpw]

theorem signDocument_of_verified (h : Host) (s : SigningService)
    (request : CertificateRequest) (certificate : Certificate)
    (hv : request.Validate = true)
    (hget : s.certRepo.GetByNIT request.NIT = .ok certificate)
    (hpw : s.certRepo.VerifyPassword certificate request.PrivateKeyPassword = .ok true) :
    s.SignDocument h request =
      match documentBytes h request.DocumentJSON with
      | .error _ =>
        ⟨[.GetByNIT request.NIT, .VerifyPassword certificate request.PrivateKeyPassword],
          .error (.domain { Code := "810", Message := "json_to_string_conversion" })⟩
      | .ok documentData =>
        ⟨[.GetByNIT request.NIT, .VerifyPassword certificate request.PrivateKeyPassword,
          .Sign certificate (.bytes documentData)],
          s.documentSigner.Sign certificate (.bytes documentData)⟩ := by
  simp only [SigningService.SignDocument, hv, hget, hpw, Bool.not_true, Bool.false_eq_true,
    if_false, documentBytes, NewDomainError, CodeJSONToStrConversion]
  rcases request.DocumentJSON with _ | v | v | v <;> simp only []
  · rcases h.jsonMarshal GoValue.nil with e | d <;> simp only []
    rcases s.documentSigner.Sign certificate (.bytes d) with e | j <;> rfl
  · rcases s.documentSigner.Sign certificate (.bytes (stringBytes v)) with e | j <;> rfl
  · rcases s.documentSigner.Sign certificate (.bytes v) with e | j <;> rfl
  · rcases h.jsonMarshal (GoValue.composite v) with e | d <;> simp only []
    rcases s.documentSigner.Sign certificate (.bytes d) with e | j <;> rfl

theorem string_infix_append (a b c : String) : b.data <:+: (a ++ b ++ c).data := by
  refine ⟨a.data, c.data, ?_⟩
  simp [String.data_append]

/-- The six ways through `SignDocument`, each with its calls and its result. -/
theorem signDocument_cases (h : Host) (s : SigningService) (request : CertificateRequest) :
    (request.Validate = false ∧
      s.SignDocument h request =
        ⟨[], .error (.domain { Code := "809", Message := "required_data" })⟩) ∨
    (request.Validate = true ∧ ∃ err, s.certRepo.GetByNIT request.NIT = .error err ∧
      s.SignDocument h request = ⟨[.GetByNIT request.NIT], .error err⟩) ∨
    (request.Validate = true ∧ ∃ certificate err,
      s.certRepo.GetByNIT request.NIT = .ok certificate ∧
      s.certRepo.VerifyPassword certificate request.PrivateKeyPassword = .error err ∧
      s.SignDocument h request =
        ⟨[.GetByNIT request.NIT, .VerifyPassword certificate request.PrivateKeyPassword],
          .error err⟩) ∨
    (request.Validate = true ∧ ∃ certificate,
      s.certRepo.GetByNIT request.NIT = .ok certificate ∧
      s.certRepo.VerifyPassword certificate request.PrivateKeyPassword = .ok false ∧
      s.SignDocument h request =
        ⟨[.GetByNIT request.NIT, .VerifyPassword certificate request.PrivateKeyPassword],
          .error (.domain
            { Code := "813",
              Message := "password_invalid%!(EXTRA string=" ++ request.NIT ++ ")" })⟩) ∨
    (request.Validate = true ∧ ∃ certificate errText,
      s.certRepo.GetByNIT request.NIT = .ok certificate ∧
      s.certRepo.VerifyPassword certificate request.PrivateKeyPassword = .ok true ∧
      documentBytes h request.DocumentJSON = .error errText ∧
      s.SignDocument h request =
        ⟨[.GetByNIT request.NIT, .VerifyPassword certificate request.PrivateKeyPassword],
          .error (.domain { Code := "810", Message := "json_to_string_conversion" })⟩) ∨
    (request.Validate = true ∧ ∃ certificate documentData,
      s.certRepo.GetByNIT request.NIT = .ok certificate ∧
      s.certRepo.VerifyPassword certificate request.PrivateKeyPassword = .ok true ∧
      documentBytes h request.DocumentJSON = .ok documentData ∧
      s.SignDocument h request =
        ⟨[.GetByNIT request.NIT, .VerifyPassword certificate request.PrivateKeyPassword,
          .Sign certificate (.bytes documentData)],
          s.documentSigner.Sign certificate (.bytes documentData)⟩) := by
  rcases hv : request.Validate with _ | _
  · exact Or.inl ⟨rfl, signDocument_of_malformed h s request hv⟩
  rcases hget : s.certRepo.GetByNIT request.NIT with err | certificate
  · exact Or.inr (Or.inl ⟨rfl, err, rfl, signDocument_of_getByNIT_error h s request err hv hget⟩)
  rcases hpw : s.certRepo.VerifyPassword certificate request.PrivateKeyPassword with err | valid
  · exact Or.inr (Or.inr (Or.inl ⟨rfl, certificate, err, rfl, hpw,
      signDocument_of_verify_error h s request certificate err hv hget hpw⟩))
  cases valid
  · exact Or.inr (Or.inr (Or.inr (Or.inl ⟨rfl, certificate, rfl, hpw,
      signDocument_of_not_verified h s request certificate hv hget hpw⟩)))
  have hsd := signDocument_of_verified h s request certificate hv hget hpw
  rcases hdoc : documentBytes h request.DocumentJSON with errText | documentData
  · rw [hdoc] at hsd
    exact Or.inr (Or.inr (Or.inr (Or.inr (Or.inl ⟨rfl, certificate, errText, rfl, hpw, rfl,
      hsd⟩))))
  · rw [hdoc] at hsd
    exact Or.inr (Or.inr (Or.inr (Or.inr (Or.inr ⟨rfl, certificate, documentData, rfl, hpw,
      rfl, hsd⟩))))

theorem signDocument_sign_call (h : Host) (s : SigningService) (request : CertificateRequest)
    (certificate : Certificate) (documentData : GoValue)
    (hcall : Call.Sign certificate documentData ∈ (s.SignDocument h request).calls) :
    s.certRepo.GetByNIT request.NIT = .ok certificate ∧
    s.certRepo.VerifyPassword certificate request.PrivateKeyPassword = .ok true := by
  rcases signDocument_cases h s request with ⟨-, hsd⟩ | ⟨-, e, -, hsd⟩ | ⟨-, c, e, -, -, hsd⟩ |
    ⟨-, c, -, -, hsd⟩ | ⟨-, c, t, -, -, -, hsd⟩ | ⟨-, c, d, hget, hpw, -, hsd⟩ <;>
    rw [hsd] at hcall
  · simp at hcall
  · simp at hcall
  · simp at hcall
  · simp at hcall
  · simp at hcall
  · have hc : certificate = c ∧ documentData = GoValue.bytes d := by simpa using hcall
    rw [hc.1]
    exact ⟨hget, hpw⟩

theorem signDocument_ok_verified (h : Host) (s : SigningService) (request : CertificateRequest)
    (token : String) (htoken : (s.SignDocument h request).result = .ok token) :
    ∃ certificate, s.certRepo.GetByNIT request.NIT = .ok certificate ∧
      s.certRepo.VerifyPassword certificate request.PrivateKeyPassword = .ok true ∧
      Call.VerifyPassword certificate request.PrivateKeyPassword ∈
        (s.SignDocument h request).calls := by
  rcases signDocument_cases h s request with ⟨-, hsd⟩ | ⟨-, e, -, hsd⟩ | ⟨-, c, e, -, -, hsd⟩ |
    ⟨-, c, -, -, hsd⟩ | ⟨-, c, t, -, -, -, hsd⟩ | ⟨-, c, d, hget, hpw, -, hsd⟩ <;>
    rw [hsd] at htoken ⊢
  · simp at htoken
  · simp at htoken
  · simp at htoken
  · simp at htoken
  · simp at htoken
  · exact ⟨c, hget, hpw, by simp⟩

/-- C2: SignDocument returns a token without error only if GetByNIT resolved a
certificate and VerifyPassword, called with that certificate and the
PrivateKeyPassword of the request, returned (true, nil); and whenever the
signer is invoked at all, it is invoked on a certificate for which
VerifyPassword returned (true, nil), never after false or an error. -/
theorem signDocument_signs_only_verified (h : Host) (s : SigningService)
    (request : CertificateRequest) :
    (∀ token, (s.SignDocument h request).result = .ok token →
      ∃ certificate, s.certRepo.GetByNIT request.NIT = .ok certificate ∧
        s.certRepo.VerifyPassword certificate request.PrivateKeyPassword = .ok true ∧
        Call.VerifyPassword certificate request.PrivateKeyPassword ∈
          (s.SignDocument h request).calls) ∧
    (∀ certificate documentData,
      Call.Sign certificate documentData ∈ (s.SignDocument h request).calls →
        s.certRepo.GetByNIT request.NIT = .ok certificate ∧
        s.certRepo.VerifyPassword certificate request.PrivateKeyPassword = .ok true) :=
  ⟨signDocument_ok_verified h s request, signDocument_sign_call h s request⟩

/-- A witness of C2 on the service doubles: the request with the credential
`secret` is signed, and the double verified that credential. -/
theorem signDocument_signs_only_verified_witness :
    ∃ certificate, stubRepository.GetByNIT "00000000" = .ok certificate ∧
      stubRepository.VerifyPassword certificate "secret" = .ok true ∧
      Call.VerifyPassword certificate "secret" ∈
        (stubService.SignDocument sampleHost (sampleRequest "00000000" "secret")).calls :=
  (signDocument_signs_only_verified sampleHost stubService
    (sampleRequest "00000000" "secret")).1 "aGVhZGVy.cGF5bG9hZA.c2ln" (by decide)

/-- C3: for a well-formed request whose certificate is resolved and whose
credential VerifyPassword rejects with (false, nil), SignDocument returns no
token and the DomainError with code 813 whose message is the text
password_invalid followed by the NIT of the request reported as an extra
operand; the message contains the NIT, and two such requests with the same NIT
get the same error whatever their PrivateKeyPassword and DocumentJSON are. -/
theorem signDocument_password_invalid (h : Host) (s₁ s₂ : SigningService)
    (r₁ r₂ : CertificateRequest) (c₁ c₂ : Certificate)
    (hv₁ : r₁.Validate = true) (hget₁ : s₁.certRepo.GetByNIT r₁.NIT = .ok c₁)
    (hpw₁ : s₁.certRepo.VerifyPassword c₁ r₁.PrivateKeyPassword = .ok false)
    (hv₂ : r₂.Validate = true) (hget₂ : s₂.certRepo.GetByNIT r₂.NIT = .ok c₂)
    (hpw₂ : s₂.certRepo.VerifyPassword c₂ r₂.PrivateKeyPassword = .ok false)
    (hnit : r₁.NIT = r₂.NIT) :
    (s₁.SignDocument h r₁).result =
      .error (.domain { Code := "813",
                        Message := "password_invalid%!(EXTRA string=" ++ r₁.NIT ++ ")" }) ∧
    r₁.NIT.data <:+: ("password_invalid%!(EXTRA string=" ++ r₁.NIT ++ ")").data ∧
    (s₂.SignDocument h r₂).result = (s₁.SignDocument h r₁).result := by
  rw [signDocument_of_not_verified h s₁ r₁ c₁ hv₁ hget₁ hpw₁,
    signDocument_of_not_verified h s₂ r₂ c₂ hv₂ hget₂ hpw₂, hnit]
  exact ⟨rfl, string_infix_append _ _ _, rfl⟩

/-- A witness of C3 on the service doubles: the credentials `wrong` and
`other` for the taxpayer 00000000 get the same error. -/
theorem signDocument_password_invalid_witness :
    (stubService.SignDocument sampleHost (sampleRequest "00000000" "wrong")).result =
      .error (.domain { Code := "813",
                        Message := "password_invalid%!(EXTRA string=" ++ "00000000" ++ ")" }) ∧
    "00000000".data <:+: ("password_invalid%!(EXTRA string=" ++ "00000000" ++ ")").data ∧
    (stubService.SignDocument sampleHost (sampleRequest "00000000" "other")).result =
      (stubService.SignDocument sampleHost (sampleRequest "00000000" "wrong")).result :=
  signDocument_password_invalid sampleHost stubService stubService
    (sampleRequest "00000000" "wrong") (sampleRequest "00000000" "other")
    sampleRecord sampleRecord (by decide) (by decide) (by decide) (by decide) (by decide)
    (by decide) (by decide)

/-! ## The use case -/

theorem validate_requestOf (input : DocumentSigningInput) :
    (requestOf input).Validate = DocumentSigningUseCase.validateInput input := rfl

theorem execute_of_malformed (h : Host) (uc : DocumentSigningUseCase)
    (input : DocumentSigningInput)
    (hv : DocumentSigningUseCase.validateInput input = false) :
    uc.Execute h input =
      ⟨[], uc.createErrorResponse h
        (.domain { Code := "809", Message := uc.translator.T h "required_data" [] })⟩ := by
  simp [DocumentSigningUseCase.Execute, hv, NewRequiredDataError, CodeRequiredData]

theorem execute_of_sign_error (h : Host) (uc : DocumentSigningUseCase)
    (input : DocumentSigningInput) (err : GoError)
    (hv : DocumentSigningUseCase.validateInput input = true)
    (hsign : (uc.signingService (requestOf input)).result = .error err) :
    uc.Execute h input =
      ⟨.SignDocument (requestOf input) :: (uc.signingService (requestOf input)).calls,
        uc.createErrorResponse h err⟩ := by
  simp only [DocumentSigningUseCase.Execute, hv, Bool.not_true, Bool.false_eq_true, if_false]
  rw [requestOf] at hsign
  simp only [hsign]
  rfl

theorem execute_of_sign_ok (h : Host) (uc : DocumentSigningUseCase)
    (input : DocumentSigningInput) (jws : String)
    (hv : DocumentSigningUseCase.validateInput input = true)
    (hsign : (uc.signingService (requestOf input)).result = .ok jws) :
    uc.Execute h input =
      ⟨.SignDocument (requestOf input) :: (uc.signingService (requestOf input)).calls,
        NewSuccessResponse jws⟩ := by
  simp only [DocumentSigningUseCase.Execute, hv, Bool.not_true, Bool.false_eq_true, if_false]
  rw [requestOf] at hsign
  simp only [hsign]
  rfl

theorem errorCode_createErrorResponse (h : Host) (uc : DocumentSigningUseCase)
    (e : DomainError) :
    (uc.createErrorResponse h (.domain e)).errorCode = some e.Code := by
  simp [DocumentSigningUseCase.createErrorResponse, NewErrorResponse, Response.errorCode]

theorem createErrorResponse_of_other_code (h : Host) (uc : DocumentSigningUseCase)
    (e : DomainError) (hcode : e.Code ≠ "813") :
    uc.createErrorResponse h (.domain e) =
      NewErrorResponse e.Code (uc.translator.T h e.Message []) := by
  simp [DocumentSigningUseCase.createErrorResponse, CodePasswordInvalid, hcode]

/-! ## The file repository -/

theorem getByNIT_of_notExist (h : Host) (r : FileCertificateRepository) (nit errText : String)
    (hread : h.ReadFile (h.Join r.basePath (nit ++ ".crt")) = .notExist errText) :
    r.GetByNIT h nit =
      .error (.domain { Code := "812", Message := h.Join r.basePath (nit ++ ".crt") }) := by
  simp [FileCertificateRepository.GetByNIT, hread, NewDomainError, CodeFileNotFound]

theorem getByNIT_of_failed (h : Host) (r : FileCertificateRepository) (nit errText : String)
    (hread : h.ReadFile (h.Join r.basePath (nit ++ ".crt")) = .failed errText) :
    r.GetByNIT h nit = .error (.domain { Code := "804", Message := errText }) := by
  simp [FileCertificateRepository.GetByNIT, hread, NewDomainError, CodeUncatalogued]

theorem getByNIT_of_inactive (h : Host) (r : FileCertificateRepository) (nit : String)
    (content : Bytes) (record : Certificate)
    (hread : h.ReadFile (h.Join r.basePath (nit ++ ".crt")) = .content content)
    (hxml : h.xmlUnmarshal content = .ok record) (hactive : record.Active = false) :
    r.GetByNIT h nit = .error (.domain { Code := "801", Message := "cert_not_found" }) := by
  simp [FileCertificateRepository.GetByNIT, hread, hxml, Certificate.IsActive, hactive,
    NewDomainError, CodeCertNotFound]

theorem getByNIT_of_no_key (h : Host) (r : FileCertificateRepository) (nit : String)
    (content : Bytes) (record : Certificate)
    (hread : h.ReadFile (h.Join r.basePath (nit ++ ".crt")) = .content content)
    (hxml : h.xmlUnmarshal content = .ok record) (hactive : record.Active = true)
    (hkey : record.PrivateKey.Encoded = "") :
    r.GetByNIT h nit = .error (.domain { Code := "802", Message := "invalid" }) := by
  simp [FileCertificateRepository.GetByNIT, hread, hxml, Certificate.IsActive, hactive,
    Certificate.HasPrivateKey, hkey, NewDomainError, CodeInvalid]

theorem bytesToPrivateKey_of_not_rsa (h : Host) (der : Bytes) (key : PKCS8Key)
    (hparse : h.ParsePKCS8PrivateKey der = .ok key) (hkind : ∀ k, key ≠ .rsa k) :
    KeyProcessor.BytesToPrivateKey h der =
      .error (.domain { Code := "802", Message := "key is not RSA type" }) := by
  cases key with
  | rsa k => exact absurd rfl (hkind k)
  | _ => simp [KeyProcessor.BytesToPrivateKey, hparse, NewDomainError, CodeInvalid]

theorem getByNIT_of_codec_error (h : Host) (r : FileCertificateRepository) (nit : String)
    (content der : Bytes) (record : Certificate) (err : GoError)
    (hread : h.ReadFile (h.Join r.basePath (nit ++ ".crt")) = .content content)
    (hxml : h.xmlUnmarshal content = .ok record) (hactive : record.Active = true)
    (hkey : record.PrivateKey.Encoded ≠ "")
    (hb64 : h.base64Decode record.PrivateKey.Encoded = .ok der)
    (hcodec : KeyProcessor.BytesToPrivateKey h der = .error err) :
    r.GetByNIT h nit = .error (.domain { Code := "803", Message := err.Error }) := by
  simp [FileCertificateRepository.GetByNIT, hread, hxml, Certificate.IsActive, hactive,
    Certificate.HasPrivateKey, hkey, Certificate.DecodePrivateKey, hb64, hcodec,
    NewDomainError, CodeNoPublicKey]

theorem fileService_of_getByNIT_error (h : Host) (r : FileCertificateRepository)
    (request : CertificateRequest) (err : GoError) (hv : request.Validate = true)
    (hget : r.GetByNIT h request.NIT = .error err) :
    (fileSigningService h r).SignDocument h request =
      ⟨[.GetByNIT request.NIT], .error err⟩ :=
  signDocument_of_getByNIT_error h (fileSigningService h r) request err hv hget

theorem fileUseCase_of_getByNIT_error (h : Host) (r : FileCertificateRepository)
    (t : Translator) (input : DocumentSigningInput) (e : DomainError)
    (hv : DocumentSigningUseCase.validateInput input = true)
    (hget : r.GetByNIT h input.NIT = .error (.domain e)) (hcode : e.Code ≠ "813") :
    ((fileSigningUseCase h r t).Execute h input).result =
      NewErrorResponse e.Code (t.T h e.Message []) := by
  have hsign : ((fileSigningUseCase h r t).signingService (requestOf input)).result =
      .error (.domain e) := by
    show ((fileSigningService h r).SignDocument h (requestOf input)).result = _
    rw [fileService_of_getByNIT_error h r (requestOf input) (.domain e) hv hget]
  rw [execute_of_sign_error h _ input _ hv hsign]
  exact createErrorResponse_of_other_code h _ e hcode

theorem fileUseCase_status_of_getByNIT_error (h : Host) (r : FileCertificateRepository)
    (t : Translator) (input : DocumentSigningInput) (e : DomainError)
    (hv : DocumentSigningUseCase.validateInput input = true)
    (hget : r.GetByNIT h input.NIT = .error (.domain e)) (hcode : e.Code ≠ "813") :
    ((fileSigningUseCase h r t).Execute h input).result.Status = "error" ∧
    ((fileSigningUseCase h r t).Execute h input).result.errorCode = some e.Code := by
  rw [fileUseCase_of_getByNIT_error h r t input e hv hget hcode]
  exact ⟨rfl, rfl⟩

/-! ## Error codes of the composed pipeline -/

/-- C4, as stated, fails: the taxpayer 99999999 has no file in the sample
store, the request is well-formed, and the error envelope of Execute carries
the code 812, not 801. -/
theorem missing_certificate_code_counterexample :
    DocumentSigningUseCase.validateInput (sampleInput "99999999" "secret") = true ∧
    sampleHost.ReadFile (sampleHost.Join sampleRepository.basePath ("99999999" ++ ".crt")) =
      .notExist "open certs/99999999.crt: no such file or directory" ∧
    ((fileSigningUseCase sampleHost sampleRepository sampleTranslator).Execute sampleHost
      (sampleInput "99999999" "secret")).result.errorCode = some "812" ∧
    ((fileSigningUseCase sampleHost sampleRepository sampleTranslator).Execute sampleHost
      (sampleInput "99999999" "secret")).result.errorCode ≠ some "801" := by
  decide

/-- C4, amended: for every well-formed request whose NIT has no certificate
file in storage, that is, whose read of the joined path yields no content,
GetByNIT is the only call made, SignDocument returns the error of GetByNIT
unchanged, and Execute answers with an error envelope that carries the code
of that error: the FileNotFound code 812 exactly when the read error is one
that `os.IsNotExist` reports, the Uncatalogued code 804 exactly when reading
fails in any other way, and in no case the CertNotFound code 801. -/
theorem missing_certificate_never_cert_not_found (h : Host) (r : FileCertificateRepository)
    (t : Translator) (input : DocumentSigningInput)
    (hv : DocumentSigningUseCase.validateInput input = true)
    (hread : ∀ content : Bytes,
      h.ReadFile (h.Join r.basePath (input.NIT ++ ".crt")) ≠ .content content) :
    ((fileSigningService h r).SignDocument h (requestOf input)).calls =
      [.GetByNIT input.NIT] ∧
    (∃ e : DomainError,
      r.GetByNIT h input.NIT = .error (.domain e) ∧
      ((fileSigningService h r).SignDocument h (requestOf input)).result =
        .error (.domain e) ∧
      ((fileSigningUseCase h r t).Execute h input).result.Status = "error" ∧
      ((fileSigningUseCase h r t).Execute h input).result.errorCode = some e.Code ∧
      (e.Code = "812" ↔
        ∃ errText, h.ReadFile (h.Join r.basePath (input.NIT ++ ".crt")) = .notExist errText) ∧
      (e.Code = "804" ↔
        ∃ errText, h.ReadFile (h.Join r.basePath (input.NIT ++ ".crt")) = .failed errText)) ∧
    ((fileSigningUseCase h r t).Execute h input).result.errorCode ≠ some "801" := by
  cases hout : h.ReadFile (h.Join r.basePath (input.NIT ++ ".crt")) with
  | content content => exact absurd hout (hread content)
  | notExist errText =>
    have hget := getByNIT_of_notExist h r input.NIT errText hout
    have hsign := fileService_of_getByNIT_error h r (requestOf input) _ hv hget
    have hresp := fileUseCase_status_of_getByNIT_error h r t input _ hv hget (by simp)
    refine ⟨by rw [hsign]; rfl, ⟨_, hget, by rw [hsign], hresp.1, hresp.2, ?_, ?_⟩, ?_⟩
    · simp
    · simp
    · rw [hresp.2]; simp
  | failed errText =>
    have hget := getByNIT_of_failed h r input.NIT errText hout
    have hsign := fileService_of_getByNIT_error h r (requestOf input) _ hv hget
    have hresp := fileUseCase_status_of_getByNIT_error h r t input _ hv hget (by simp)
    refine ⟨by rw [hsign]; rfl, ⟨_, hget, by rw [hsign], hresp.1, hresp.2, ?_, ?_⟩, ?_⟩
    · simp
    · simp
    · rw [hresp.2]; simp

/-- A witness of the amended C4 on the third host: the NIT `00000000.crt/1` is
well-formed and has no file, the read fails with an error that is not of the
not-exist kind, and the envelope carries 804. -/
theorem missing_certificate_never_cert_not_found_witness :
    (DocumentSigningUseCase.validateInput (sampleInput "00000000.crt/1" "secret") = true ∧
      sampleHostNotDir.ReadFile
          (sampleHostNotDir.Join sampleRepository.basePath ("00000000.crt/1" ++ ".crt")) =
        .failed "open certs/00000000.crt/1.crt: not a directory") ∧
    (((fileSigningService sampleHostNotDir sampleRepository).SignDocument sampleHostNotDir
        (requestOf (sampleInput "00000000.crt/1" "secret"))).calls =
        [.GetByNIT "00000000.crt/1"] ∧
      (∃ e : DomainError,
        sampleRepository.GetByNIT sampleHostNotDir "00000000.crt/1" = .error (.domain e) ∧
        ((fileSigningService sampleHostNotDir sampleRepository).SignDocument sampleHostNotDir
          (requestOf (sampleInput "00000000.crt/1" "secret"))).result = .error (.domain e) ∧
        ((fileSigningUseCase sampleHostNotDir sampleRepository sampleTranslator).Execute
          sampleHostNotDir (sampleInput "00000000.crt/1" "secret")).result.Status = "error" ∧
        ((fileSigningUseCase sampleHostNotDir sampleRepository sampleTranslator).Execute
          sampleHostNotDir (sampleInput "00000000.crt/1" "secret")).result.errorCode =
            some e.Code ∧
        (e.Code = "812" ↔
          ∃ errText, sampleHostNotDir.ReadFile (sampleHostNotDir.Join sampleRepository.basePath
            ("00000000.crt/1" ++ ".crt")) = .notExist errText) ∧
        (e.Code = "804" ↔
          ∃ errText, sampleHostNotDir.ReadFile (sampleHostNotDir.Join sampleRepository.basePath
            ("00000000.crt/1" ++ ".crt")) = .failed errText)) ∧
      ((fileSigningUseCase sampleHostNotDir sampleRepository sampleTranslator).Execute
        sampleHostNotDir (sampleInput "00000000.crt/1" "secret")).result.errorCode ≠
          some "801") ∧
    ((fileSigningUseCase sampleHostNotDir sampleRepository sampleTranslator).Execute
      sampleHostNotDir (sampleInput "00000000.crt/1" "secret")).result.errorCode =
        some "804" :=
  ⟨⟨by decide, by decide⟩,
    missing_certificate_never_cert_not_found sampleHostNotDir sampleRepository sampleTranslator
      (sampleInput "00000000.crt/1" "secret") (by decide)
      (fun content hcontent => by
        have hfailed : sampleHostNotDir.ReadFile
            (sampleHostNotDir.Join sampleRepository.basePath ("00000000.crt/1" ++ ".crt")) =
            .failed "open certs/00000000.crt/1.crt: not a directory" := by decide
        exact ReadFileResult.noConfusion (hfailed.symm.trans hcontent)),
    by decide⟩

/-- C5, as stated, fails: the record of the taxpayer 11111111 parses and is
not active, and for the empty credential SignDocument returns RequiredData
(code 809), not CertNotFound. -/
theorem inactive_every_credential_counterexample :
    sampleHost.ReadFile (sampleHost.Join sampleRepository.basePath ("11111111" ++ ".crt")) =
      .content [2] ∧
    sampleHost.xmlUnmarshal [2] = .ok sampleInactive ∧
    sampleInactive.Active = false ∧
    (sampleRequest "11111111" "").NIT = "11111111" ∧
    ((fileSigningService sampleHost sampleRepository).SignDocument sampleHost
      (sampleRequest "11111111" "")).result =
        .error (.domain { Code := "809", Message := "required_data" }) := by
  decide

/-- C5, amended: for every stored record that parses and has Active = false,
GetByNIT returns the DomainError with code 801 whatever the key material of
the record is; therefore SignDocument returns CertNotFound, after the single
call GetByNIT, for every well-formed request on that NIT (every non-empty
credential, correct or not), and for no request on that NIT does it return
PasswordInvalid. -/
theorem inactive_certificate_not_found (h : Host) (r : FileCertificateRepository)
    (nit : String) (content : Bytes) (record : Certificate)
    (hread : h.ReadFile (h.Join r.basePath (nit ++ ".crt")) = .content content)
    (hxml : h.xmlUnmarshal content = .ok record) (hactive : record.Active = false) :
    r.GetByNIT h nit = .error (.domain { Code := "801", Message := "cert_not_found" }) ∧
    (∀ request : CertificateRequest, request.NIT = nit → request.Validate = true →
      (fileSigningService h r).SignDocument h request =
        ⟨[.GetByNIT nit], .error (.domain { Code := "801", Message := "cert_not_found" })⟩) ∧
    (∀ request : CertificateRequest, request.NIT = nit → ∀ e : DomainError,
      ((fileSigningService h r).SignDocument h request).result = .error (.domain e) →
        e.Code ≠ "813") := by
  have hget := getByNIT_of_inactive h r nit content record hread hxml hactive
  refine ⟨hget, ?_, ?_⟩
  · rintro request rfl hv
    exact fileService_of_getByNIT_error h r request _ hv hget
  · rintro request rfl e he
    rcases hv : request.Validate with _ | _
    · rw [signDocument_of_malformed h _ request hv] at he
      simp only [Except.error.injEq, GoError.domain.injEq] at he
      rw [← he]
      decide
    · rw [fileService_of_getByNIT_error h r request _ hv hget] at he
      simp only [Except.error.injEq, GoError.domain.injEq] at he
      rw [← he]
      decide

/-- A witness of the amended C5 on the sample host: the record of the
taxpayer 11111111 is not active. -/
theorem inactive_certificate_not_found_witness :
    sampleRepository.GetByNIT sampleHost "11111111" =
      .error (.domain { Code := "801", Message := "cert_not_found" }) ∧
    (fileSigningService sampleHost sampleRepository).SignDocument sampleHost
        (sampleRequest "11111111" "secret") =
      ⟨[.GetByNIT "11111111"],
        .error (.domain { Code := "801", Message := "cert_not_found" })⟩ :=
  have hw := inactive_certificate_not_found sampleHost sampleRepository "11111111" [2]
    sampleInactive (by decide) (by decide) (by decide)
  ⟨hw.1, hw.2.1 (sampleRequest "11111111" "secret") (by decide) (by decide)⟩

/-- C6, as stated, fails: the record of the taxpayer 22222222 parses, is
active and has an empty privateKey.encodied, and for the empty credential the
error envelope of Execute carries the code 809, not 802. -/
theorem no_key_every_credential_counterexample :
    sampleHost.ReadFile (sampleHost.Join sampleRepository.basePath ("22222222" ++ ".crt")) =
      .content [3] ∧
    sampleHost.xmlUnmarshal [3] = .ok sampleNoKey ∧
    sampleNoKey.Active = true ∧
    sampleNoKey.PrivateKey.Encoded = "" ∧
    (sampleInput "22222222" "").NIT = "22222222" ∧
    ((fileSigningUseCase sampleHost sampleRepository sampleTranslator).Execute sampleHost
      (sampleInput "22222222" "")).result.errorCode = some "809" := by
  decide

/-- C6, amended: for every stored record that parses, has Active = true and
has an empty privateKey.encodied, GetByNIT returns the DomainError with code
802, and the error envelope of Execute carries the code 802 (with the
translation of the key invalid) for every well-formed input on that NIT, that
is for every non-empty credential. -/
theorem no_key_is_invalid (h : Host) (r : FileCertificateRepository) (t : Translator)
    (nit : String) (content : Bytes) (record : Certificate)
    (hread : h.ReadFile (h.Join r.basePath (nit ++ ".crt")) = .content content)
    (hxml : h.xmlUnmarshal content = .ok record) (hactive : record.Active = true)
    (hkey : record.PrivateKey.Encoded = "") :
    r.GetByNIT h nit = .error (.domain { Code := "802", Message := "invalid" }) ∧
    (∀ input : DocumentSigningInput, input.NIT = nit →
      DocumentSigningUseCase.validateInput input = true →
        ((fileSigningUseCase h r t).Execute h input).result =
          NewErrorResponse "802" (t.T h "invalid" []) ∧
        ((fileSigningUseCase h r t).Execute h input).result.errorCode = some "802") := by
  have hget := getByNIT_of_no_key h r nit content record hread hxml hactive hkey
  refine ⟨hget, ?_⟩
  rintro input rfl hv
  have hresp := fileUseCase_of_getByNIT_error h r t input _ hv hget (by simp)
  refine ⟨hresp, ?_⟩
  rw [hresp]
  rfl

/-- A witness of the amended C6 on the sample host: the record of the
taxpayer 22222222 has no key bytes. -/
theorem no_key_is_invalid_witness :
    sampleRepository.GetByNIT sampleHost "22222222" =
      .error (.domain { Code := "802", Message := "invalid" }) ∧
    ((fileSigningUseCase sampleHost sampleRepository sampleTranslator).Execute sampleHost
      (sampleInput "22222222" "secret")).result.errorCode = some "802" :=
  have hw := no_key_is_invalid sampleHost sampleRepository sampleTranslator "22222222" [3]
    sampleNoKey (by decide) (by decide) (by decide) (by decide)
  ⟨hw.1, (hw.2 (sampleInput "22222222" "secret") (by decide) (by decide)).2⟩

/-- C7, as stated, fails: the record of the taxpayer 33333333 is active and
its key bytes parse as an EC key, the request is well-formed, and the error
envelope of Execute carries the code 803, not 802. -/
theorem non_rsa_key_code_counterexample :
    sampleHost.ReadFile (sampleHost.Join sampleRepository.basePath ("33333333" ++ ".crt")) =
      .content [4] ∧
    sampleHost.xmlUnmarshal [4] = .ok sampleEC ∧
    sampleEC.Active = true ∧
    sampleHost.base64Decode sampleEC.PrivateKey.Encoded = .ok [69, 67] ∧
    sampleHost.ParsePKCS8PrivateKey [69, 67] = .ok (.ecdsa "P-256" 7) ∧
    DocumentSigningUseCase.validateInput (sampleInput "33333333" "secret") = true ∧
    ((fileSigningUseCase sampleHost sampleRepository sampleTranslator).Execute sampleHost
      (sampleInput "33333333" "secret")).result.errorCode = some "803" ∧
    ((fileSigningUseCase sampleHost sampleRepository sampleTranslator).Execute sampleHost
      (sampleInput "33333333" "secret")).result.errorCode ≠ some "802" := by
  decide

/-- C7, amended: for every active stored record whose privateKey.encodied
base64-decodes to a well-formed PKCS#8 key that is not RSA, BytesToPrivateKey
fails with code 802 and the message key is not RSA type, GetByNIT replaces
that error by one with code 803 (NoPublicKey) whose message is the text of the
codec error, and for every well-formed input on that NIT the error envelope of
Execute carries the code 803. -/
theorem non_rsa_key_is_no_public_key (h : Host) (r : FileCertificateRepository)
    (t : Translator) (nit : String) (content der : Bytes) (record : Certificate)
    (key : PKCS8Key)
    (hread : h.ReadFile (h.Join r.basePath (nit ++ ".crt")) = .content content)
    (hxml : h.xmlUnmarshal content = .ok record) (hactive : record.Active = true)
    (hb64 : h.base64Decode record.PrivateKey.Encoded = .ok der)
    (hkey : record.PrivateKey.Encoded ≠ "")
    (hparse : h.ParsePKCS8PrivateKey der = .ok key) (hkind : ∀ k, key ≠ .rsa k) :
    KeyProcessor.BytesToPrivateKey h der =
      .error (.domain { Code := "802", Message := "key is not RSA type" }) ∧
    r.GetByNIT h nit =
      .error (.domain { Code := "803", Message := "802: key is not RSA type" }) ∧
    (∀ input : DocumentSigningInput, input.NIT = nit →
      DocumentSigningUseCase.validateInput input = true →
        ((fileSigningUseCase h r t).Execute h input).result =
          NewErrorResponse "803" (t.T h "802: key is not RSA type" []) ∧
        ((fileSigningUseCase h r t).Execute h input).result.errorCode = some "803") := by
  have hcodec := bytesToPrivateKey_of_not_rsa h der key hparse hkind
  have hget : r.GetByNIT h nit =
      .error (.domain { Code := "803", Message := "802: key is not RSA type" }) := by
    rw [getByNIT_of_codec_error h r nit content der record _ hread hxml hactive hkey hb64 hcodec]
    rfl
  refine ⟨hcodec, hget, ?_⟩
  rintro input rfl hv
  have hresp := fileUseCase_of_getByNIT_error h r t input _ hv hget (by simp)
  refine ⟨hresp, ?_⟩
  rw [hresp]
  rfl

/-- A witness of the amended C7 on the sample host: the record of the
taxpayer 33333333 holds an EC key. -/
theorem non_rsa_key_is_no_public_key_witness :
    KeyProcessor.BytesToPrivateKey sampleHost [69, 67] =
      .error (.domain { Code := "802", Message := "key is not RSA type" }) ∧
    sampleRepository.GetByNIT sampleHost "33333333" =
      .error (.domain { Code := "803", Message := "802: key is not RSA type" }) ∧
    ((fileSigningUseCase sampleHost sampleRepository sampleTranslator).Execute sampleHost
      (sampleInput "33333333" "secret")).result.errorCode = some "803" :=
  have hw := non_rsa_key_is_no_public_key sampleHost sampleRepository sampleTranslator
    "33333333" [4] [69, 67] sampleEC (.ecdsa "P-256" 7) (by decide) (by decide) (by decide)
    (by decide) (by decide) (by decide) (by intro k; simp)
  ⟨hw.1, hw.2.1, (hw.2.2 (sampleInput "33333333" "secret") (by decide) (by decide)).2⟩

/-! ## The certificate returned by the file repository -/

theorem bytesToPrivateKey_ok_iff (h : Host) (der : Bytes) (certificate : Certificate) :
    KeyProcessor.BytesToPrivateKey h der = .ok certificate ↔
      ∃ key, h.ParsePKCS8PrivateKey der = .ok (.rsa key) ∧
        certificate = { Certificate.zero with DecodedPrivateKey := some key } := by
  unfold KeyProcessor.BytesToPrivateKey
  rcases h.ParsePKCS8PrivateKey der with t | key
  · simp
  · cases key <;> simp [eq_comm]

theorem getByNIT_ok_iff (h : Host) (r : FileCertificateRepository) (nit : String)
    (certificate : Certificate) :
    r.GetByNIT h nit = .ok certificate ↔
      ∃ content record der key,
        h.ReadFile (h.Join r.basePath (nit ++ ".crt")) = .content content ∧
        h.xmlUnmarshal content = .ok record ∧
        record.Active = true ∧
        record.PrivateKey.Encoded ≠ "" ∧
        h.base64Decode record.PrivateKey.Encoded = .ok der ∧
        h.ParsePKCS8PrivateKey der = .ok (.rsa key) ∧
        certificate = { record with DecodedPrivateKey := some key } := by
  constructor
  · intro hget
    unfold FileCertificateRepository.GetByNIT at hget
    simp only [] at hget
    split at hget
    · exact absurd hget (by simp)
    · exact absurd hget (by simp)
    · rename_i content hread
      split at hget
      · exact absurd hget (by simp)
      · rename_i record hxml
        split at hget
        · exact absurd hget (by simp)
        · rename_i hactive
          split at hget
          · exact absurd hget (by simp)
          · rename_i hkey
            split at hget
            · exact absurd hget (by simp)
            · rename_i der hb64
              split at hget
              · exact absurd hget (by simp)
              · rename_i certWithKey hcodec
                obtain ⟨key, hparse, rfl⟩ := (bytesToPrivateKey_ok_iff h der certWithKey).mp hcodec
                refine ⟨content, record, der, key, hread, hxml, ?_, ?_, hb64, hparse, ?_⟩
                · simpa [Certificate.IsActive] using hactive
                · simpa [Certificate.HasPrivateKey] using hkey
                · exact (Except.ok.inj hget).symm
  · rintro ⟨content, record, der, key, hread, hxml, hactive, hkey, hb64, hparse, rfl⟩
    have hcodec := (bytesToPrivateKey_ok_iff h der _).mpr ⟨key, hparse, rfl⟩
    simp [FileCertificateRepository.GetByNIT, hread, hxml, Certificate.IsActive, hactive,
      Certificate.HasPrivateKey, hkey, Certificate.DecodePrivateKey, hb64, hcodec]

theorem getByNIT_error_cases (h : Host) (r : FileCertificateRepository) (nit : String)
    (err : GoError) (hget : r.GetByNIT h nit = .error err) :
    ∃ e : DomainError, err = .domain e ∧
      (e.Code = "812" ∨ e.Code = "804" ∨ e.Code = "801" ∨ e.Code = "810" ∨ e.Code = "803" ∨
        e = { Code := "802", Message := "invalid" }) := by
  unfold FileCertificateRepository.GetByNIT at hget
  simp only [NewDomainError, CodeFileNotFound, CodeUncatalogued, CodeCertNotFound, CodeInvalid,
    CodeJSONToStrConversion, CodeNoPublicKey] at hget
  split at hget
  · exact ⟨_, (Except.error.inj hget).symm, by simp⟩
  · exact ⟨_, (Except.error.inj hget).symm, by simp⟩
  · split at hget
    · exact ⟨_, (Except.error.inj hget).symm, by simp⟩
    · split at hget
      · exact ⟨_, (Except.error.inj hget).symm, by simp⟩
      · split at hget
        · exact ⟨_, (Except.error.inj hget).symm, by simp⟩
        · split at hget
          · exact ⟨_, (Except.error.inj hget).symm, by simp⟩
          · split at hget
            · exact ⟨_, (Except.error.inj hget).symm, by simp⟩
            · exact absurd hget (by simp)

theorem fileVerifyPassword_error_cases (h : Host) (r : FileCertificateRepository)
    (certificate : Certificate) (password : String) (err : GoError)
    (hpw : r.VerifyPassword h certificate password = .error err) :
    ∃ msg, err = .domain { Code := "804", Message := msg } := by
  unfold FileCertificateRepository.VerifyPassword at hpw
  split at hpw
  · exact ⟨_, (Except.error.inj hpw).symm⟩
  · exact absurd hpw (by simp)

theorem jwsSign_error_cases (h : Host) (certificate : Certificate) (key : RSAPrivateKey)
    (documentData : GoValue) (err : GoError)
    (hkey : certificate.DecodedPrivateKey = some key)
    (hsign : JWSSigner.Sign h certificate documentData = .error err) :
    ∃ msg, err = .domain { Code := "810", Message := msg } ∨
      err = .domain { Code := "804", Message := msg } := by
  unfold JWSSigner.Sign at hsign
  simp only [hkey, NewDomainError, CodeJSONToStrConversion, CodeUncatalogued] at hsign
  split at hsign
  · rename_i e heq
    split at heq
    · exact absurd heq (by simp)
    · exact absurd heq (by simp)
    · split at heq
      · exact ⟨_, Or.inl (((Except.error.inj heq).trans (Except.error.inj hsign)).symm)⟩
      · exact absurd heq (by simp)
  · split at hsign
    · exact ⟨_, Or.inr (Except.error.inj hsign).symm⟩
    · split at hsign
      · exact ⟨_, Or.inr (Except.error.inj hsign).symm⟩
      · split at hsign
        · exact ⟨_, Or.inr (Except.error.inj hsign).symm⟩
        · exact absurd hsign (by simp)

/-- C8: GetByNIT returns a certificate only if the stored record is active,
has a non-empty privateKey.encodied that base64-decodes, and the decoded bytes
parse as a PKCS#8 RSA key; the certificate returned has that key as its
DecodedPrivateKey (so it is not nil) and equals the parsed record in every
other field.  Consequently, in the pipeline of SigningService over
FileCertificateRepository and JWSSigner, every certificate handed to
JWSSigner.Sign has a key, Sign never answers private key not available, and
SignDocument never returns that error. -/
theorem getByNIT_returns_usable_certificate (h : Host) (r : FileCertificateRepository) :
    (∀ nit certificate, r.GetByNIT h nit = .ok certificate →
      ∃ content record der key,
        h.ReadFile (h.Join r.basePath (nit ++ ".crt")) = .content content ∧
        h.xmlUnmarshal content = .ok record ∧
        record.Active = true ∧
        record.PrivateKey.Encoded ≠ "" ∧
        h.base64Decode record.PrivateKey.Encoded = .ok der ∧
        h.ParsePKCS8PrivateKey der = .ok (.rsa key) ∧
        certificate.DecodedPrivateKey = some key ∧
        certificate = { record with DecodedPrivateKey := some key }) ∧
    (∀ request certificate documentData,
      Call.Sign certificate documentData ∈
          ((fileSigningService h r).SignDocument h request).calls →
        certificate.DecodedPrivateKey ≠ none ∧
        JWSSigner.Sign h certificate documentData ≠
          .error (.domain { Code := "802", Message := "private key not available" })) ∧
    (∀ request, ((fileSigningService h r).SignDocument h request).result ≠
      .error (.domain { Code := "802", Message := "private key not available" })) := by
  have hkeyed : ∀ nit certificate, r.GetByNIT h nit = .ok certificate →
      ∃ key, certificate.DecodedPrivateKey = some key := by
    intro nit certificate hget
    obtain ⟨_, _, _, key, _, _, _, _, _, _, rfl⟩ := (getByNIT_ok_iff h r nit certificate).mp hget
    exact ⟨key, rfl⟩
  have hsign : ∀ certificate key documentData, certificate.DecodedPrivateKey = some key →
      JWSSigner.Sign h certificate documentData ≠
        .error (.domain { Code := "802", Message := "private key not available" }) := by
    intro certificate key documentData hkey hbad
    obtain ⟨msg, hmsg | hmsg⟩ := jwsSign_error_cases h certificate key documentData _ hkey hbad
    · exact absurd hmsg (by simp)
    · exact absurd hmsg (by simp)
  refine ⟨?_, ?_, ?_⟩
  · intro nit certificate hget
    obtain ⟨content, record, der, key, hread, hxml, hactive, hkey, hb64, hparse, rfl⟩ :=
      (getByNIT_ok_iff h r nit certificate).mp hget
    exact ⟨content, record, der, key, hread, hxml, hactive, hkey, hb64, hparse, rfl, rfl⟩
  · intro request certificate documentData hcall
    have hget := (signDocument_sign_call h (fileSigningService h r) request certificate
      documentData hcall).1
    obtain ⟨key, hkey⟩ := hkeyed request.NIT certificate hget
    exact ⟨by simp [hkey], hsign certificate key documentData hkey⟩
  · intro request
    rcases signDocument_cases h (fileSigningService h r) request with
      ⟨-, hsd⟩ | ⟨-, e, hget, hsd⟩ | ⟨-, c, e, -, hpw, hsd⟩ | ⟨-, c, -, -, hsd⟩ |
      ⟨-, c, t, -, -, -, hsd⟩ | ⟨-, c, d, hget, -, -, hsd⟩ <;> rw [hsd]
    · simp
    · obtain ⟨e', rfl, hcases⟩ := getByNIT_error_cases h r request.NIT e hget
      intro hbad
      have he : e' = { Code := "802", Message := "private key not available" } := by
        simpa using hbad
      subst he
      simp at hcases
    · obtain ⟨msg, rfl⟩ := fileVerifyPassword_error_cases h r c request.PrivateKeyPassword e hpw
      simp
    · simp
    · simp
    · obtain ⟨key, hkey⟩ := hkeyed request.NIT c hget
      exact hsign c key (.bytes d) hkey

/-- A witness of C8 on the sample host: the certificate returned for the
taxpayer 00000000 is the stored record with the parsed key. -/
theorem getByNIT_returns_usable_certificate_witness :
    ∃ content record der key,
      sampleHost.ReadFile (sampleHost.Join sampleRepository.basePath ("00000000" ++ ".crt")) =
        .content content ∧
      sampleHost.xmlUnmarshal content = .ok record ∧
      record.Active = true ∧
      record.PrivateKey.Encoded ≠ "" ∧
      sampleHost.base64Decode record.PrivateKey.Encoded = .ok der ∧
      sampleHost.ParsePKCS8PrivateKey der = .ok (.rsa key) ∧
      ({ sampleRecord with DecodedPrivateKey := some sampleKey } : Certificate).DecodedPrivateKey =
        some key ∧
      ({ sampleRecord with DecodedPrivateKey := some sampleKey } : Certificate) =
        { record with DecodedPrivateKey := some key } :=
  (getByNIT_returns_usable_certificate sampleHost sampleRepository).1 "00000000"
    { sampleRecord with DecodedPrivateKey := some sampleKey } (by decide)

/-! ## The key codec and the password check -/

/-- C9: BytesToPrivateKey returns the DomainError with code 804 (carrying the
text of the parser) exactly when the bytes do not parse as a PKCS#8 private
key, the DomainError with code 802 and message key is not RSA type exactly
when they parse as a key that is not RSA, and otherwise the certificate whose
DecodedPrivateKey is the parsed RSA key and whose other fields are zero
values; the result is determined by the parse of the bytes alone. -/
theorem bytesToPrivateKey_spec (h h' : Host) (b : Bytes) :
    (∀ msg, KeyProcessor.BytesToPrivateKey h b =
        .error (.domain { Code := "804", Message := msg }) ↔
      h.ParsePKCS8PrivateKey b = .error msg) ∧
    (KeyProcessor.BytesToPrivateKey h b =
        .error (.domain { Code := "802", Message := "key is not RSA type" }) ↔
      ∃ key, h.ParsePKCS8PrivateKey b = .ok key ∧ ∀ k, key ≠ .rsa k) ∧
    (∀ certificate, KeyProcessor.BytesToPrivateKey h b = .ok certificate ↔
      ∃ k, h.ParsePKCS8PrivateKey b = .ok (.rsa k) ∧
        certificate =
          { ID := "", Active := false, NIT := "", PrivateKey := Key.zero,
            PublicKey := Key.zero, DecodedPrivateKey := some k }) ∧
    (h.ParsePKCS8PrivateKey b = h'.ParsePKCS8PrivateKey b →
      KeyProcessor.BytesToPrivateKey h b = KeyProcessor.BytesToPrivateKey h' b) := by
  refine ⟨?_, ?_, ?_, ?_⟩
  · intro msg
    unfold KeyProcessor.BytesToPrivateKey
    rcases h.ParsePKCS8PrivateKey b with t | key
    · simp [NewDomainError, CodeUncatalogued]
    · cases key <;> simp [NewDomainError, CodeInvalid]
  · unfold KeyProcessor.BytesToPrivateKey
    rcases h.ParsePKCS8PrivateKey b with t | key
    · simp [NewDomainError, CodeUncatalogued]
    · cases key <;> simp [NewDomainError, CodeInvalid]
  · intro certificate
    exact bytesToPrivateKey_ok_iff h b certificate
  · intro hsame
    unfold KeyProcessor.BytesToPrivateKey
    rw [hsame]

/-- A witness of C9 on the sample host: one byte string of each kind. -/
theorem bytesToPrivateKey_spec_witness :
    KeyProcessor.BytesToPrivateKey sampleHost [0] =
      .error (.domain { Code := "804", Message := "x509: failed to parse private key" }) ∧
    KeyProcessor.BytesToPrivateKey sampleHost [69, 67] =
      .error (.domain { Code := "802", Message := "key is not RSA type" }) ∧
    KeyProcessor.BytesToPrivateKey sampleHost [82, 83, 65] =
      .ok { ID := "", Active := false, NIT := "", PrivateKey := Key.zero,
            PublicKey := Key.zero, DecodedPrivateKey := some sampleKey } :=
  have hw := bytesToPrivateKey_spec sampleHost sampleHost
  ⟨((hw [0]).1 "x509: failed to parse private key").mpr (by decide),
   (hw [69, 67]).2.1.mpr ⟨.ecdsa "P-256" 7, by decide, by intro k; simp⟩,
   ((hw [82, 83, 65]).2.2.1 _).mpr ⟨sampleKey, by decide, rfl⟩⟩

/-- C10: whenever HashPassword returns a digest for a credential without
error, VerifyPassword of that credential against that digest returns
(true, nil); this holds for every string, the empty one included, and
HashPassword does return a digest for every string. -/
theorem verifyPassword_accepts_own_digest (h : Host) (p : String) :
    (∀ digest, KeyProcessor.HashPassword h p = .ok digest →
      KeyProcessor.VerifyPassword h p digest = .ok true) ∧
    (∃ digest, KeyProcessor.HashPassword h p = .ok digest ∧
      KeyProcessor.VerifyPassword h p digest = .ok true) := by
  have hverify : ∀ digest, KeyProcessor.HashPassword h p = .ok digest →
      KeyProcessor.VerifyPassword h p digest = .ok true := by
    intro digest hhash
    simp [KeyProcessor.VerifyPassword, hhash]
  refine ⟨hverify, ?_⟩
  obtain ⟨hashedBytes, hsum, -⟩ := h.sha512_digest (stringBytes p)
  have hhash : KeyProcessor.HashPassword h p = .ok (hexEncodeToString hashedBytes) := by
    simp [KeyProcessor.HashPassword, hsum]
  exact ⟨_, hhash, hverify _ hhash⟩

/-- A witness of C10 on the sample host, for the credential `secret`. -/
theorem verifyPassword_accepts_own_digest_witness :
    KeyProcessor.HashPassword sampleHost "secret" = .ok
      "73656372657400000000000000000000000000000000000000000000000000000000000000000000000000000000000000000000000000000000000000000000" ∧
    KeyProcessor.VerifyPassword sampleHost "secret"
      "73656372657400000000000000000000000000000000000000000000000000000000000000000000000000000000000000000000000000000000000000000000" = .ok true :=
  ⟨by decide,
   (verifyPassword_accepts_own_digest sampleHost "secret").1
      "73656372657400000000000000000000000000000000000000000000000000000000000000000000000000000000000000000000000000000000000000000000" (by decide)⟩

/-! ## The signer without a key -/

/-- C13: for every certificate whose DecodedPrivateKey is nil and for every
documentData value (a string, bytes, the nil interface or a structured value,
serializable or not), JWSSigner.Sign returns no token and the DomainError with
code 802 and message private key not available; the payload and the JSON
encoder of the host play no part in the result. -/
theorem jwsSign_without_key (h : Host) (certificate : Certificate) (documentData : GoValue)
    (hkey : certificate.DecodedPrivateKey = none) :
    JWSSigner.Sign h certificate documentData =
      .error (.domain { Code := "802", Message := "private key not available" }) := by
  simp [JWSSigner.Sign, hkey, NewDomainError, CodeInvalid]

/-- A witness of C13 on the sample host: the stored record, which has no
decoded key, and a channel, which the JSON encoder refuses. -/
theorem jwsSign_without_key_witness :
    sampleHost.jsonMarshal (.composite { typeName := "chan int", repr := "0xc000010000" }) =
      .error "json: unsupported type: chan int" ∧
    JWSSigner.Sign sampleHost sampleRecord
        (.composite { typeName := "chan int", repr := "0xc000010000" }) =
      .error (.domain { Code := "802", Message := "private key not available" }) :=
  ⟨by decide,
   jwsSign_without_key sampleHost sampleRecord
     (.composite { typeName := "chan int", repr := "0xc000010000" }) (by decide)⟩

/-! ## The error taxonomy of the composed pipeline -/

theorem getByNIT_keyed (h : Host) (r : FileCertificateRepository) (nit : String)
    (certificate : Certificate) (hget : r.GetByNIT h nit = .ok certificate) :
    ∃ key, certificate.DecodedPrivateKey = some key := by
  obtain ⟨_, _, _, key, _, _, _, _, _, _, rfl⟩ := (getByNIT_ok_iff h r nit certificate).mp hget
  exact ⟨key, rfl⟩

/-- C17: in the pipeline of SigningService over FileCertificateRepository and
JWSSigner, every error returned by SignDocument is a DomainError whose code is
one of 801, 802, 803, 804, 809, 810, 812 and 813; hence createErrorResponse
builds its envelope from that code and message and never takes the branch of
an untyped error (code 500). -/
theorem pipeline_errors_are_domain_errors (h : Host) (r : FileCertificateRepository)
    (t : Translator) (request : CertificateRequest) (err : GoError)
    (herr : ((fileSigningService h r).SignDocument h request).result = .error err) :
    ∃ e : DomainError, err = .domain e ∧
      e.Code ∈ ["801", "802", "803", "804", "809", "810", "812", "813"] ∧
      ((fileSigningUseCase h r t).createErrorResponse h err).errorCode = some e.Code ∧
      ((fileSigningUseCase h r t).createErrorResponse h err).errorCode ≠ some "500" := by
  have hdomain : ∃ e : DomainError, err = .domain e ∧
      e.Code ∈ ["801", "802", "803", "804", "809", "810", "812", "813"] := by
    rcases signDocument_cases h (fileSigningService h r) request with
      ⟨-, hsd⟩ | ⟨-, e, hget, hsd⟩ | ⟨-, c, e, -, hpw, hsd⟩ | ⟨-, c, -, -, hsd⟩ |
      ⟨-, c, t, -, -, -, hsd⟩ | ⟨-, c, d, hget, -, -, hsd⟩ <;> rw [hsd] at herr <;>
      simp only [Except.error.injEq] at herr
    · exact ⟨_, herr.symm, by simp⟩
    · subst herr
      obtain ⟨e', rfl, hcases⟩ := getByNIT_error_cases h r request.NIT e hget
      refine ⟨e', rfl, ?_⟩
      rcases hcases with hc | hc | hc | hc | hc | hc <;> simp [hc]
    · subst herr
      obtain ⟨msg, rfl⟩ := fileVerifyPassword_error_cases h r c request.PrivateKeyPassword e hpw
      exact ⟨_, rfl, by simp⟩
    · exact ⟨_, herr.symm, by simp⟩
    · exact ⟨_, herr.symm, by simp⟩
    · obtain ⟨key, hkey⟩ := getByNIT_keyed h r request.NIT c hget
      obtain ⟨msg, hmsg | hmsg⟩ := jwsSign_error_cases h c key (.bytes d) err hkey herr
      · exact ⟨_, hmsg, by simp⟩
      · exact ⟨_, hmsg, by simp⟩
  obtain ⟨e, rfl, hcode⟩ := hdomain
  refine ⟨e, rfl, hcode, errorCode_createErrorResponse h _ e, ?_⟩
  rw [errorCode_createErrorResponse h _ e]
  intro h500
  rw [Option.some.injEq] at h500
  rw [h500] at hcode
  simp at hcode

/-- A witness of C17 on the sample host: the wrong credential for the
taxpayer 00000000. -/
theorem pipeline_errors_are_domain_errors_witness :
    ∃ e : DomainError,
      GoError.domain { Code := "813", Message := "password_invalid%!(EXTRA string=00000000)" } =
        .domain e ∧
      e.Code ∈ ["801", "802", "803", "804", "809", "810", "812", "813"] ∧
      ((fileSigningUseCase sampleHost sampleRepository sampleTranslator).createErrorResponse
        sampleHost (.domain { Code := "813",
                              Message := "password_invalid%!(EXTRA string=00000000)" })).errorCode =
        some e.Code ∧
      ((fileSigningUseCase sampleHost sampleRepository sampleTranslator).createErrorResponse
        sampleHost (.domain { Code := "813",
                              Message := "password_invalid%!(EXTRA string=00000000)" })).errorCode ≠
        some "500" :=
  pipeline_errors_are_domain_errors sampleHost sampleRepository sampleTranslator
    (sampleRequest "00000000" "wrong") _ (by decide)

/-! ## Propagation of collaborator errors -/

theorem signDocument_of_sign_result (h : Host) (s : SigningService)
    (request : CertificateRequest) (certificate : Certificate) (documentData : Bytes)
    (hv : request.Validate = true)
    (hget : s.certRepo.GetByNIT request.NIT = .ok certificate)
    (hpw : s.certRepo.VerifyPassword certificate request.PrivateKeyPassword = .ok true)
    (hdoc : documentBytes h request.DocumentJSON = .ok documentData) :
    s.SignDocument h request =
      ⟨[.GetByNIT request.NIT, .VerifyPassword certificate request.PrivateKeyPassword,
        .Sign certificate (.bytes documentData)],
        s.documentSigner.Sign certificate (.bytes documentData)⟩ := by
  rw [signDocument_of_verified h s request certificate hv hget hpw, hdoc]

/-- C18: for every repository, every signer and every well-formed request, an
error of GetByNIT is returned unchanged by SignDocument after that single
call; an error of VerifyPassword is returned unchanged and Sign is not called;
an error of Sign is returned unchanged.  When SignDocument returns a
DomainError to Execute, the error envelope carries its code unchanged. -/
theorem signDocument_propagates_errors (h : Host) (s : SigningService)
    (request : CertificateRequest) (hv : request.Validate = true) :
    (∀ e, s.certRepo.GetByNIT request.NIT = .error e →
      s.SignDocument h request = ⟨[.GetByNIT request.NIT], .error e⟩) ∧
    (∀ certificate e, s.certRepo.GetByNIT request.NIT = .ok certificate →
      s.certRepo.VerifyPassword certificate request.PrivateKeyPassword = .error e →
      s.SignDocument h request =
        ⟨[.GetByNIT request.NIT, .VerifyPassword certificate request.PrivateKeyPassword],
          .error e⟩) ∧
    (∀ certificate documentData e, s.certRepo.GetByNIT request.NIT = .ok certificate →
      s.certRepo.VerifyPassword certificate request.PrivateKeyPassword = .ok true →
      documentBytes h request.DocumentJSON = .ok documentData →
      s.documentSigner.Sign certificate (.bytes documentData) = .error e →
      s.SignDocument h request =
        ⟨[.GetByNIT request.NIT, .VerifyPassword certificate request.PrivateKeyPassword,
          .Sign certificate (.bytes documentData)], .error e⟩) ∧
    (∀ (t : Translator) (input : DocumentSigningInput) (e : DomainError),
      requestOf input = request →
      (s.SignDocument h request).result = .error (.domain e) →
      (DocumentSigningUseCase.Execute h { signingService := s.SignDocument h, translator := t }
        input).result.errorCode = some e.Code) := by
  refine ⟨?_, ?_, ?_, ?_⟩
  · intro e hget
    exact signDocument_of_getByNIT_error h s request e hv hget
  · intro certificate e hget hpw
    exact signDocument_of_verify_error h s request certificate e hv hget hpw
  · intro certificate documentData e hget hpw hdoc hsign
    rw [signDocument_of_sign_result h s request certificate documentData hv hget hpw hdoc, hsign]
  · rintro t input e rfl hres
    have hvi : DocumentSigningUseCase.validateInput input = true := by
      rw [← validate_requestOf]
      exact hv
    rw [execute_of_sign_error h _ input (.domain e) hvi hres]
    exact errorCode_createErrorResponse h _ e

/-- A witness of C18 on the service doubles: the double has no certificate for
the taxpayer 99999999, and its error goes through unchanged. -/
theorem signDocument_propagates_errors_witness :
    stubService.SignDocument sampleHost (sampleRequest "99999999" "secret") =
      ⟨[.GetByNIT "99999999"],
        .error (.domain { Code := "801", Message := "cert_not_found" })⟩ ∧
    (DocumentSigningUseCase.Execute sampleHost
      { signingService := stubService.SignDocument sampleHost, translator := sampleTranslator }
      (sampleInput "99999999" "secret")).result.errorCode = some "801" :=
  have hw := signDocument_propagates_errors sampleHost stubService
    (sampleRequest "99999999" "secret") (by decide)
  ⟨hw.1 _ (by decide),
   hw.2.2.2 sampleTranslator (sampleInput "99999999" "secret")
     { Code := "801", Message := "cert_not_found" } (by decide) (by decide)⟩

/-! ## Key material that does not decode -/

theorem getByNIT_of_base64_error (h : Host) (r : FileCertificateRepository) (nit : String)
    (content : Bytes) (record : Certificate) (errText : String)
    (hread : h.ReadFile (h.Join r.basePath (nit ++ ".crt")) = .content content)
    (hxml : h.xmlUnmarshal content = .ok record) (hactive : record.Active = true)
    (hkey : record.PrivateKey.Encoded ≠ "")
    (hb64 : h.base64Decode record.PrivateKey.Encoded = .error errText) :
    r.GetByNIT h nit = .error (.domain { Code := "810", Message := errText }) := by
  simp [FileCertificateRepository.GetByNIT, hread, hxml, Certificate.IsActive, hactive,
    Certificate.HasPrivateKey, hkey, Certificate.DecodePrivateKey, hb64,
    NewDomainError, CodeJSONToStrConversion]

/-- C19: for every active stored record with a non-empty privateKey.encodied,
GetByNIT returns the DomainError with code 810 (carrying the text of the
decoder) when the base64 decoding fails; and when the decoding succeeds and
BytesToPrivateKey fails, for a malformed PKCS#8 blob as for a key that is not
RSA, GetByNIT returns a DomainError with code 803 whose message is the text of
the codec error, so the code of the codec (804 or 802) is replaced. -/
theorem getByNIT_key_decoding_errors (h : Host) (r : FileCertificateRepository)
    (nit : String) (content : Bytes) (record : Certificate)
    (hread : h.ReadFile (h.Join r.basePath (nit ++ ".crt")) = .content content)
    (hxml : h.xmlUnmarshal content = .ok record) (hactive : record.Active = true)
    (hkey : record.PrivateKey.Encoded ≠ "") :
    (∀ errText, h.base64Decode record.PrivateKey.Encoded = .error errText →
      r.GetByNIT h nit = .error (.domain { Code := "810", Message := errText })) ∧
    (∀ der err, h.base64Decode record.PrivateKey.Encoded = .ok der →
      KeyProcessor.BytesToPrivateKey h der = .error err →
      r.GetByNIT h nit = .error (.domain { Code := "803", Message := err.Error })) ∧
    (∀ der errText, h.base64Decode record.PrivateKey.Encoded = .ok der →
      h.ParsePKCS8PrivateKey der = .error errText →
      r.GetByNIT h nit = .error (.domain { Code := "803", Message := "804: " ++ errText })) ∧
    (∀ der key, h.base64Decode record.PrivateKey.Encoded = .ok der →
      h.ParsePKCS8PrivateKey der = .ok key → (∀ k, key ≠ .rsa k) →
      r.GetByNIT h nit =
        .error (.domain { Code := "803", Message := "802: key is not RSA type" })) := by
  refine ⟨?_, ?_, ?_, ?_⟩
  · intro errText hb64
    exact getByNIT_of_base64_error h r nit content record errText hread hxml hactive hkey hb64
  · intro der err hb64 hcodec
    exact getByNIT_of_codec_error h r nit content der record err hread hxml hactive hkey hb64
      hcodec
  · intro der errText hb64 hparse
    have hcodec : KeyProcessor.BytesToPrivateKey h der =
        .error (.domain { Code := "804", Message := errText }) := by
      simp [KeyProcessor.BytesToPrivateKey, hparse, NewDomainError, CodeUncatalogued]
    rw [getByNIT_of_codec_error h r nit content der record _ hread hxml hactive hkey hb64 hcodec]
    rfl
  · intro der key hb64 hparse hkind
    have hcodec := bytesToPrivateKey_of_not_rsa h der key hparse hkind
    rw [getByNIT_of_codec_error h r nit content der record _ hread hxml hactive hkey hb64 hcodec]
    rfl

/-- A witness of C19 on the sample host: the record of the taxpayer 33333333,
whose key bytes decode to an EC key. -/
theorem getByNIT_key_decoding_errors_witness :
    sampleRepository.GetByNIT sampleHost "33333333" =
      .error (.domain { Code := "803", Message := "802: key is not RSA type" }) :=
  (getByNIT_key_decoding_errors sampleHost sampleRepository "33333333" [4] sampleEC
    (by decide) (by decide) (by decide) (by decide)).2.2.2 [69, 67] (.ecdsa "P-256" 7)
    (by decide) (by decide) (by intro k; simp)

/-! ## Authentication before normalization -/

/-- C20: for every well-formed request whose certificate is resolved and whose
credential VerifyPassword rejects with (false, nil), SignDocument returns
PasswordInvalid (code 813) after the calls GetByNIT and VerifyPassword alone,
whatever DocumentJSON is, and so also when json.Marshal cannot serialize it;
and when GetByNIT and VerifyPassword return without error and SignDocument
returns the error of the payload normalization (code 810, message
json_to_string_conversion), VerifyPassword returned (true, nil). -/
theorem signDocument_authenticates_before_payload (h : Host) (s : SigningService)
    (request : CertificateRequest) (certificate : Certificate) (valid : Bool)
    (hv : request.Validate = true)
    (hget : s.certRepo.GetByNIT request.NIT = .ok certificate)
    (hpw : s.certRepo.VerifyPassword certificate request.PrivateKeyPassword = .ok valid) :
    (valid = false →
      s.SignDocument h request =
        ⟨[.GetByNIT request.NIT, .VerifyPassword certificate request.PrivateKeyPassword],
          .error (.domain { Code := "813",
                            Message := "password_invalid%!(EXTRA string=" ++ request.NIT ++ ")" })⟩) ∧
    ((s.SignDocument h request).result =
        .error (.domain { Code := "810", Message := "json_to_string_conversion" }) →
      valid = true) ∧
    ((∃ errText, documentBytes h request.DocumentJSON = .error errText) → valid = true →
      s.SignDocument h request =
        ⟨[.GetByNIT request.NIT, .VerifyPassword certificate request.PrivateKeyPassword],
          .error (.domain { Code := "810", Message := "json_to_string_conversion" })⟩) := by
  refine ⟨?_, ?_, ?_⟩
  · rintro rfl
    exact signDocument_of_not_verified h s request certificate hv hget hpw
  · intro hres
    cases valid
    · rw [signDocument_of_not_verified h s request certificate hv hget hpw] at hres
      simp at hres
    · rfl
  · rintro ⟨errText, hdoc⟩ rfl
    rw [signDocument_of_verified h s request certificate hv hget hpw, hdoc]

/-- A witness of C20 on the service doubles: a channel as payload and the
wrong credential give PasswordInvalid, not the normalization error. -/
theorem signDocument_authenticates_before_payload_witness :
    sampleHost.jsonMarshal (.composite { typeName := "chan int", repr := "0xc000010000" }) =
      .error "json: unsupported type: chan int" ∧
    stubService.SignDocument sampleHost
        { sampleRequest "00000000" "wrong" with
          DocumentJSON := .composite { typeName := "chan int", repr := "0xc000010000" } } =
      ⟨[.GetByNIT "00000000", .VerifyPassword sampleRecord "wrong"],
        .error (.domain { Code := "813",
                          Message := "password_invalid%!(EXTRA string=" ++ "00000000" ++ ")" })⟩ :=
  ⟨by decide,
   (signDocument_authenticates_before_payload sampleHost stubService
      { sampleRequest "00000000" "wrong" with
        DocumentJSON := .composite { typeName := "chan int", repr := "0xc000010000" } }
      sampleRecord false (by decide) (by decide) (by decide)).1 rfl⟩

/-! ## The hexadecimal digest -/

theorem hexDigit_mem (i : Nat) (hi : i < 16) : hextable.getD i '0' ∈ hextable := by
  have hall : ∀ j : Fin 16, hextable.getD j.val '0' ∈ hextable := by decide
  exact hall ⟨i, hi⟩

theorem hexDigit_injective (i j : Nat) (hi : i < 16) (hj : j < 16)
    (hij : hextable.getD i '0' = hextable.getD j '0') : i = j := by
  have hall : ∀ a b : Fin 16, hextable.getD a.val '0' = hextable.getD b.val '0' → a = b := by
    decide
  exact congrArg Fin.val (hall ⟨i, hi⟩ ⟨j, hj⟩ hij)

theorem uint8_toNat_lt (v : UInt8) : v.toNat < 256 := v.val.isLt

theorem uint8_eq_of_toNat_eq (v w : UInt8) (hvw : v.toNat = w.toNat) : v = w := by
  exact UInt8.eq_of_toBitVec_eq (BitVec.eq_of_toNat_eq hvw)

theorem hexEncodeToString_data_cons (v : UInt8) (src : Bytes) :
    (hexEncodeToString (v :: src)).data =
      hextable.getD (v.toNat / 16) '0' :: hextable.getD (v.toNat % 16) '0' ::
        (hexEncodeToString src).data := by
  simp [hexEncodeToString]

theorem hexEncodeToString_length (src : Bytes) :
    (hexEncodeToString src).length = 2 * src.length := by
  induction src with
  | nil => rfl
  | cons v rest ih =>
    rw [String.length, hexEncodeToString_data_cons]
    simp only [List.length_cons]
    rw [String.length] at ih
    omega

theorem hexEncodeToString_chars (src : Bytes) :
    ∀ c ∈ (hexEncodeToString src).data, c ∈ hextable := by
  induction src with
  | nil => intro c hc; simp [hexEncodeToString] at hc
  | cons v rest ih =>
    intro c hc
    rw [hexEncodeToString_data_cons] at hc
    have hv := uint8_toNat_lt v
    rcases List.mem_cons.mp hc with rfl | hc
    · exact hexDigit_mem _ (by omega)
    rcases List.mem_cons.mp hc with rfl | hc
    · exact hexDigit_mem _ (by omega)
    · exact ih c hc

theorem hexEncodeToString_injective (a b : Bytes)
    (hab : hexEncodeToString a = hexEncodeToString b) : a = b := by
  induction a generalizing b with
  | nil =>
    cases b with
    | nil => rfl
    | cons w rest =>
      have := congrArg String.length hab
      rw [hexEncodeToString_length, hexEncodeToString_length] at this
      simp at this
  | cons v rest ih =>
    cases b with
    | nil =>
      have := congrArg String.length hab
      rw [hexEncodeToString_length, hexEncodeToString_length] at this
      simp at this
    | cons w rest' =>
      have hdata := congrArg String.data hab
      rw [hexEncodeToString_data_cons, hexEncodeToString_data_cons] at hdata
      simp only [List.cons.injEq] at hdata
      obtain ⟨hhi, hlo, hrest⟩ := hdata
      have hv := uint8_toNat_lt v
      have hw := uint8_toNat_lt w
      have h1 := hexDigit_injective _ _ (by omega) (by omega) hhi
      have h2 := hexDigit_injective _ _ (by omega) (by omega) hlo
      have hvw : v = w := uint8_eq_of_toNat_eq v w (by omega)
      have hrr : rest = rest' := ih rest' (String.ext hrest)
      rw [hvw, hrr]

theorem hashPassword_eq (h : Host) (p : String) (digest : Bytes)
    (hsum : h.sha512 (stringBytes p) = .ok digest) :
    KeyProcessor.HashPassword h p = .ok (hexEncodeToString digest) := by
  simp [KeyProcessor.HashPassword, hsum]

theorem verifyPassword_eq (h : Host) (p s : String) (digest : Bytes)
    (hsum : h.sha512 (stringBytes p) = .ok digest) :
    KeyProcessor.VerifyPassword h p s = .ok (hexEncodeToString digest == s) := by
  simp [KeyProcessor.VerifyPassword, hashPassword_eq h p digest hsum]

theorem hextable_plain : ∀ c ∈ hextable, c.isUpper = false ∧ c.isWhitespace = false := by
  decide

/-- C12: for every credential p and every stored string s, VerifyPassword
returns no error and the boolean d == s, where d, the result of HashPassword,
is the hexadecimal encoding of the 64 bytes that one pass of SHA-512 gives for
the bytes of p: 128 characters, each of 0123456789abcdef.  The comparison is
exact: a stored string that verifies has 128 characters, none of them
upper-case or white space.  FileCertificateRepository.VerifyPassword therefore
returns (d == stored digest, nil) and never an error, so its Uncatalogued
branch is not reachable. -/
theorem verifyPassword_exact (h : Host) (p s : String) :
    ∃ digest : Bytes,
      h.sha512 (stringBytes p) = .ok digest ∧ digest.length = 64 ∧
      KeyProcessor.HashPassword h p = .ok (hexEncodeToString digest) ∧
      (hexEncodeToString digest).length = 128 ∧
      (∀ c ∈ (hexEncodeToString digest).data, c ∈ "0123456789abcdef".data) ∧
      KeyProcessor.VerifyPassword h p s = .ok (hexEncodeToString digest == s) ∧
      (KeyProcessor.VerifyPassword h p s = .ok true →
        s.length = 128 ∧ ∀ c ∈ s.data, c.isUpper = false ∧ c.isWhitespace = false) ∧
      (∀ (r : FileCertificateRepository) (certificate : Certificate),
        certificate.PrivateKey.Password = s →
          r.VerifyPassword h certificate p = .ok (hexEncodeToString digest == s) ∧
          ∀ err, r.VerifyPassword h certificate p ≠ .error err) := by
  obtain ⟨digest, hsum, hlen⟩ := h.sha512_digest (stringBytes p)
  have hverify := verifyPassword_eq h p s digest hsum
  have hhexlen : (hexEncodeToString digest).length = 128 := by
    rw [hexEncodeToString_length, hlen]
  refine ⟨digest, hsum, hlen, hashPassword_eq h p digest hsum, hhexlen,
    hexEncodeToString_chars digest, hverify, ?_, ?_⟩
  · intro htrue
    rw [hverify] at htrue
    have heq : hexEncodeToString digest = s := by simpa using htrue
    rw [← heq]
    exact ⟨hhexlen, fun c hc => hextable_plain c (hexEncodeToString_chars digest c hc)⟩
  · rintro r certificate rfl
    have hrepo : r.VerifyPassword h certificate p =
        .ok (hexEncodeToString digest == certificate.PrivateKey.Password) := by
      simp [FileCertificateRepository.VerifyPassword, hverify]
    refine ⟨hrepo, ?_⟩
    intro err herr
    rw [hrepo] at herr
    exact absurd herr (by simp)

/-- A witness of C12 on the sample host: the digest of `secret` in upper-case
hexadecimal does not verify, the digest itself does. -/
theorem verifyPassword_exact_witness :
    KeyProcessor.VerifyPassword sampleHost "secret"
      "73656372657400000000000000000000000000000000000000000000000000000000000000000000000000000000000000000000000000000000000000000000" =
        .ok true ∧
    KeyProcessor.VerifyPassword sampleHost "secret" "736563726574" = .ok false ∧
    KeyProcessor.VerifyPassword sampleHost "secret" " 736563726574" = .ok false :=
  have hw := fun s => verifyPassword_exact sampleHost "secret" s
  ⟨(hw _).elim fun digest hd => by
      have hsum : digest = sampleDigest (stringBytes "secret") := by
        have := hd.1
        exact (Except.ok.inj this).symm
      rw [hd.2.2.2.2.2.1, hsum]
      decide,
   by decide, by decide⟩

/-! ## Credentials with equal digests -/

/-- By counting: there are more credentials of 513 letters a and b than
digests of 64 bytes, so two distinct ones have the same digest, and
VerifyPassword accepts the one against the digest of the other. -/
theorem exists_colliding_credentials (h : Host) :
    ∃ p q : String, p ≠ q ∧ p.length = 513 ∧ q.length = 513 ∧
      ∃ digest, KeyProcessor.HashPassword h q = .ok digest ∧
        KeyProcessor.VerifyPassword h p digest = .ok true := by
  classical
  -- the credentials: one letter per bit of a vector of 513 bits
  let credential : Mathlib.Vector Bool 513 → String := fun v =>
    String.mk (v.toList.map fun b => if b then 'a' else 'b')
  have hcredential : Function.Injective credential := by
    intro v w hvw
    have hdata : v.toList.map (fun b => if b then 'a' else 'b') =
        w.toList.map (fun b => if b then 'a' else 'b') := congrArg String.data hvw
    have hinj : Function.Injective (fun b : Bool => if b then 'a' else 'b') := by
      intro a b; cases a <;> cases b <;> simp
    exact Mathlib.Vector.toList_injective (List.map_injective_iff.mpr hinj hdata)
  -- the digests: vectors of 64 bytes
  let bytesEquiv : UInt8 ≃ Fin 256 :=
    { toFun := fun v => ⟨v.toNat, uint8_toNat_lt v⟩
      invFun := fun i => UInt8.ofNat i.val
      left_inv := fun v => uint8_eq_of_toNat_eq _ _ (UInt8.toNat_ofNat_of_lt (uint8_toNat_lt v))
      right_inv := fun i => Fin.ext (UInt8.toNat_ofNat_of_lt i.isLt) }
  letI : Fintype UInt8 := Fintype.ofEquiv (Fin 256) bytesEquiv.symm
  have hbytes : Fintype.card UInt8 = 256 := by
    rw [Fintype.card_congr bytesEquiv, Fintype.card_fin]
  choose digestOf hdigestOf using fun v : Mathlib.Vector Bool 513 =>
    h.sha512_digest (stringBytes (credential v))
  have hcard : Fintype.card (Mathlib.Vector UInt8 64) < Fintype.card (Mathlib.Vector Bool 513) := by
    rw [card_vector, card_vector, hbytes, Fintype.card_bool]
    norm_num
  let digestVector : Mathlib.Vector Bool 513 → Mathlib.Vector UInt8 64 :=
    fun v => ⟨digestOf v, (hdigestOf v).2⟩
  obtain ⟨v, w, hvw, hsame⟩ := Fintype.exists_ne_map_eq_of_card_lt digestVector hcard
  have hdigest : digestOf v = digestOf w := congrArg Subtype.val hsame
  refine ⟨credential v, credential w, fun hpq => hvw (hcredential hpq), ?_, ?_,
    hexEncodeToString (digestOf w), hashPassword_eq h _ _ (hdigestOf w).1, ?_⟩
  · simp [credential, String.length]
  · simp [credential, String.length]
  · rw [verifyPassword_eq h _ _ _ (hdigestOf v).1, hdigest]
    simp

/-- C11, as stated, fails: no digest function with 64 bytes of output
separates all credentials, so for no host does VerifyPassword return false for
every pair of distinct credentials p and q on the digest of q. -/
theorem verifyPassword_distinct_counterexample :
    ¬ ∃ h : Host, ∀ p q digest : String, p ≠ q →
      KeyProcessor.HashPassword h q = .ok digest →
      KeyProcessor.VerifyPassword h p digest = .ok false := by
  rintro ⟨h, hall⟩
  obtain ⟨p, q, hpq, -, -, digest, hhash, hverify⟩ := exists_colliding_credentials h
  have hfalse := hall p q digest hpq hhash
  rw [hverify] at hfalse
  exact absurd hfalse (by simp)

/-- C11, amended: for all strings p and q, VerifyPassword of p against the
digest that HashPassword returns for q gives no error and false exactly when
the SHA-512 digests of the two credentials differ (and true exactly when they
are equal); among the credentials of 513 characters there are two distinct
ones with equal digests. -/
theorem verifyPassword_rejects_other_digest (h : Host) (p q : String) (dp dq : Bytes)
    (hp : h.sha512 (stringBytes p) = .ok dp) (hq : h.sha512 (stringBytes q) = .ok dq) :
    KeyProcessor.HashPassword h q = .ok (hexEncodeToString dq) ∧
    (KeyProcessor.VerifyPassword h p (hexEncodeToString dq) = .ok false ↔ dp ≠ dq) ∧
    (KeyProcessor.VerifyPassword h p (hexEncodeToString dq) = .ok true ↔ dp = dq) ∧
    (∃ p' q' : String, p' ≠ q' ∧ p'.length = 513 ∧ q'.length = 513 ∧
      ∃ digest, KeyProcessor.HashPassword h q' = .ok digest ∧
        KeyProcessor.VerifyPassword h p' digest = .ok true) := by
  have hiff : hexEncodeToString dp = hexEncodeToString dq ↔ dp = dq :=
    ⟨hexEncodeToString_injective dp dq, fun hd => by rw [hd]⟩
  refine ⟨hashPassword_eq h q dq hq, ?_, ?_, exists_colliding_credentials h⟩
  · rw [verifyPassword_eq h p _ dp hp]
    simp [hiff]
  · rw [verifyPassword_eq h p _ dp hp]
    simp [hiff]

/-- A witness of the amended C11 on the sample host: the empty credential
against the digest of `secret`. -/
theorem verifyPassword_rejects_other_digest_witness :
    KeyProcessor.VerifyPassword sampleHost ""
      (hexEncodeToString (sampleDigest (stringBytes "secret"))) = .ok false :=
  (verifyPassword_rejects_other_digest sampleHost "" "secret"
    (sampleDigest (stringBytes "")) (sampleDigest (stringBytes "secret")) rfl rfl).2.1.mpr
    (by decide)

/-! ## The compact token -/

theorem base64Sextets_lt (src : Bytes) : ∀ i ∈ base64Sextets src, i < 64 := by
  induction src using base64Sextets.induct with
  | case1 a b c rest ih =>
    intro i hi
    simp only [base64Sextets, List.mem_cons] at hi
    rcases hi with rfl | rfl | rfl | rfl | hi
    · exact Nat.mod_lt _ (by decide)
    · exact Nat.mod_lt _ (by decide)
    · exact Nat.mod_lt _ (by decide)
    · exact Nat.mod_lt _ (by decide)
    · exact ih i hi
  | case2 a b =>
    intro i hi
    simp only [base64Sextets, List.mem_cons, List.mem_singleton, List.not_mem_nil, or_false] at hi
    rcases hi with rfl | rfl | rfl <;> exact Nat.mod_lt _ (by decide)
  | case3 a =>
    intro i hi
    simp only [base64Sextets, List.mem_cons, List.mem_singleton, List.not_mem_nil, or_false] at hi
    rcases hi with rfl | rfl <;> exact Nat.mod_lt _ (by decide)
  | case4 =>
    intro i hi
    simp [base64Sextets] at hi

theorem uint8_ofNat_toNat (v : UInt8) : UInt8.ofNat v.toNat = v :=
  uint8_eq_of_toNat_eq _ _ (UInt8.toNat_ofNat_of_lt (uint8_toNat_lt v))

theorem base64Octets_sextets (src : Bytes) : base64Octets (base64Sextets src) = some src := by
  induction src using base64Sextets.induct with
  | case1 a b c rest ih =>
    have ha := uint8_toNat_lt a
    have hb := uint8_toNat_lt b
    have hc := uint8_toNat_lt c
    simp only [base64Sextets, base64Octets, ih, Option.map_some']
    have h1 : (a.toNat * 65536 + b.toNat * 256 + c.toNat) / 262144 % 64 * 262144 +
        (a.toNat * 65536 + b.toNat * 256 + c.toNat) / 4096 % 64 * 4096 +
        (a.toNat * 65536 + b.toNat * 256 + c.toNat) / 64 % 64 * 64 +
        (a.toNat * 65536 + b.toNat * 256 + c.toNat) % 64 =
        a.toNat * 65536 + b.toNat * 256 + c.toNat := by omega
    rw [h1]
    have h2 : (a.toNat * 65536 + b.toNat * 256 + c.toNat) / 65536 = a.toNat := by omega
    have h3 : (a.toNat * 65536 + b.toNat * 256 + c.toNat) / 256 % 256 = b.toNat := by omega
    have h4 : (a.toNat * 65536 + b.toNat * 256 + c.toNat) % 256 = c.toNat := by omega
    rw [h2, h3, h4, uint8_ofNat_toNat, uint8_ofNat_toNat, uint8_ofNat_toNat]
  | case2 a b =>
    have ha := uint8_toNat_lt a
    have hb := uint8_toNat_lt b
    simp only [base64Sextets, base64Octets]
    have h1 : (a.toNat * 65536 + b.toNat * 256) / 262144 % 64 * 262144 +
        (a.toNat * 65536 + b.toNat * 256) / 4096 % 64 * 4096 +
        (a.toNat * 65536 + b.toNat * 256) / 64 % 64 * 64 =
        a.toNat * 65536 + b.toNat * 256 := by omega
    rw [h1]
    have h2 : (a.toNat * 65536 + b.toNat * 256) / 65536 = a.toNat := by omega
    have h3 : (a.toNat * 65536 + b.toNat * 256) / 256 % 256 = b.toNat := by omega
    rw [h2, h3, uint8_ofNat_toNat, uint8_ofNat_toNat]
  | case3 a =>
    have ha := uint8_toNat_lt a
    simp only [base64Sextets, base64Octets]
    have h1 : (a.toNat * 65536 / 262144 % 64 * 262144 + a.toNat * 65536 / 4096 % 64 * 4096) /
        65536 = a.toNat := by omega
    rw [h1, uint8_ofNat_toNat]
  | case4 => rfl

theorem base64URLChar_mem (i : Nat) (hi : i < 64) :
    base64URLAlphabet.getD i 'A' ∈ base64URLAlphabet := by
  have hall : ∀ j : Fin 64, base64URLAlphabet.getD j.val 'A' ∈ base64URLAlphabet := by decide
  exact hall ⟨i, hi⟩

theorem base64URLValue_char (i : Nat) (hi : i < 64) :
    base64URLValue (base64URLAlphabet.getD i 'A') = some i := by
  have hall : ∀ j : Fin 64,
      base64URLValue (base64URLAlphabet.getD j.val 'A') = some j.val := by decide
  exact hall ⟨i, hi⟩

theorem base64URLAlphabet_plain :
    ∀ c ∈ base64URLAlphabet, c ≠ '.' ∧ c ≠ '\n' ∧ c ≠ '\r' := by
  decide

theorem base64RawURLEncode_chars (src : Bytes) :
    ∀ c ∈ (base64RawURLEncode src).data, c ∈ base64URLAlphabet := by
  intro c hc
  simp only [base64RawURLEncode, List.mem_map] at hc
  obtain ⟨i, hi, rfl⟩ := hc
  exact base64URLChar_mem i (base64Sextets_lt src i hi)

theorem base64RawURLEncode_no_dot (src : Bytes) : '.' ∉ (base64RawURLEncode src).data :=
  fun hdot => (base64URLAlphabet_plain _ (base64RawURLEncode_chars src _ hdot)).1 rfl

theorem mapM_base64URLValue (sextets : List Nat) (hlt : ∀ i ∈ sextets, i < 64) :
    (sextets.map fun i => base64URLAlphabet.getD i 'A').mapM base64URLValue = some sextets := by
  induction sextets with
  | nil => rfl
  | cons i rest ih =>
    have hi : i < 64 := hlt i (by simp)
    have hrest : ∀ j ∈ rest, j < 64 := fun j hj => hlt j (by simp [hj])
    rw [List.map_cons, List.mapM_cons, base64URLValue_char i hi, ih hrest]
    rfl

/-- Decoding undoes encoding: `RawURLEncoding.DecodeString` returns the bytes
that `RawURLEncoding.EncodeToString` was given. -/
theorem base64RawURLDecode_encode (src : Bytes) :
    base64RawURLDecode (base64RawURLEncode src) = some src := by
  have hfilter : (base64RawURLEncode src).data.filter (fun c => c ≠ '\n' ∧ c ≠ '\r') =
      (base64RawURLEncode src).data := by
    apply List.filter_eq_self.mpr
    intro c hc
    have hplain := base64URLAlphabet_plain c (base64RawURLEncode_chars src c hc)
    simp [hplain.2.1, hplain.2.2]
  rw [base64RawURLDecode, hfilter]
  simp only [base64RawURLEncode]
  rw [mapM_base64URLValue _ (base64Sextets_lt src)]
  exact base64Octets_sextets src

theorem tokenSegments_of_no_dot (segment : List Char) (hdot : '.' ∉ segment) :
    tokenSegments segment = [segment] := by
  induction segment with
  | nil => rfl
  | cons c rest ih =>
    have hc : c ≠ '.' := fun hc => hdot (by simp [hc])
    have hrest : '.' ∉ rest := fun hr => hdot (by simp [hr])
    simp [tokenSegments, hc, ih hrest]

theorem tokenSegments_append_dot (segment rest : List Char) (hdot : '.' ∉ segment) :
    tokenSegments (segment ++ '.' :: rest) = segment :: tokenSegments rest := by
  induction segment with
  | nil => simp [tokenSegments]
  | cons c tail ih =>
    have hc : c ≠ '.' := fun hc => hdot (by simp [hc])
    have htail : '.' ∉ tail := fun hr => hdot (by simp [hr])
    simp [tokenSegments, hc, ih htail]

theorem compactSerialization_segments (object : JSONWebSignature) :
    tokenSegments (compactSerialization object).data =
      [(base64RawURLEncode object.protectedHeader).data,
       (base64RawURLEncode object.payload).data,
       (base64RawURLEncode object.signature).data] := by
  have hdata : (compactSerialization object).data =
      (base64RawURLEncode object.protectedHeader).data ++ '.' ::
        ((base64RawURLEncode object.payload).data ++ '.' ::
          (base64RawURLEncode object.signature).data) := by
    simp [compactSerialization, String.data_append]
  rw [hdata, tokenSegments_append_dot _ _ (base64RawURLEncode_no_dot _),
    tokenSegments_append_dot _ _ (base64RawURLEncode_no_dot _),
    tokenSegments_of_no_dot _ (base64RawURLEncode_no_dot _)]

theorem compactSerialization_dots (object : JSONWebSignature) :
    (compactSerialization object).data.count '.' = 2 := by
  have hdata : (compactSerialization object).data =
      (base64RawURLEncode object.protectedHeader).data ++ '.' ::
        ((base64RawURLEncode object.payload).data ++ '.' ::
          (base64RawURLEncode object.signature).data) := by
    simp [compactSerialization, String.data_append]
  rw [hdata]
  simp [List.count_append, List.count_cons,
    List.count_eq_zero_of_not_mem (base64RawURLEncode_no_dot object.protectedHeader),
    List.count_eq_zero_of_not_mem (base64RawURLEncode_no_dot object.payload),
    List.count_eq_zero_of_not_mem (base64RawURLEncode_no_dot object.signature)]

theorem jwsSign_bytes_ok (h : Host) (certificate : Certificate) (payload : Bytes)
    (token : String) (hsign : JWSSigner.Sign h certificate (.bytes payload) = .ok token) :
    ∃ key signer object, certificate.DecodedPrivateKey = some key ∧
      h.NewSigner key = .ok signer ∧ h.joseSign signer payload = .ok object ∧
      h.CompactSerialize object = .ok token := by
  unfold JWSSigner.Sign at hsign
  split at hsign
  · exact absurd hsign (by simp)
  · rename_i key hkey
    simp only [] at hsign
    split at hsign
    · exact absurd hsign (by simp)
    · rename_i signer hsigner
      split at hsign
      · exact absurd hsign (by simp)
      · rename_i object hobject
        split at hsign
        · exact absurd hsign (by simp)
        · rename_i serialized hserialized
          exact ⟨key, signer, object, hkey, hsigner, hobject,
            hserialized.trans (congrArg Except.ok (Except.ok.inj hsign))⟩

/-- C14: when JWSSigner.Sign succeeds on a payload of bytes, the token it
returns contains exactly two dots, so it has three segments: the base64url
encodings of the protected header, of the payload and of the signature; and
decoding the middle segment as unpadded base64url gives back exactly the
payload. -/
theorem jwsSign_token_shape (h : Host) (certificate : Certificate) (payload : Bytes)
    (token : String) (hsign : JWSSigner.Sign h certificate (.bytes payload) = .ok token) :
    token.data.count '.' = 2 ∧
    (tokenSegments token.data).length = 3 ∧
    (∃ header signature : Bytes, tokenSegments token.data =
      [(base64RawURLEncode header).data, (base64RawURLEncode payload).data,
       (base64RawURLEncode signature).data]) ∧
    (∃ middle, (tokenSegments token.data)[1]? = some middle ∧
      base64RawURLDecode (String.mk middle) = some payload) := by
  obtain ⟨key, signer, object, -, -, hobject, hserial⟩ :=
    jwsSign_bytes_ok h certificate payload token hsign
  have hpayload : object.payload = payload := h.joseSign_payload signer payload object hobject
  have htoken : token = compactSerialization object :=
    h.CompactSerialize_format object token hserial
  have hsegments := compactSerialization_segments object
  rw [hpayload] at hsegments
  rw [htoken]
  refine ⟨compactSerialization_dots object, by rw [hsegments]; rfl,
    ⟨object.protectedHeader, object.signature, hsegments⟩,
    (base64RawURLEncode payload).data, by rw [hsegments]; rfl, ?_⟩
  exact base64RawURLDecode_encode payload

/-- A witness of C14 on the sample host: the payload `doc` signed with the
sample key. -/
theorem jwsSign_token_shape_witness :
    "eyJhbGciOiJSUzUxMiJ9.ZG9j.EZ0".data.count '.' = 2 ∧
    (tokenSegments "eyJhbGciOiJSUzUxMiJ9.ZG9j.EZ0".data).length = 3 ∧
    (∃ header signature : Bytes, tokenSegments "eyJhbGciOiJSUzUxMiJ9.ZG9j.EZ0".data =
      [(base64RawURLEncode header).data, (base64RawURLEncode [100, 111, 99]).data,
       (base64RawURLEncode signature).data]) ∧
    (∃ middle, (tokenSegments "eyJhbGciOiJSUzUxMiJ9.ZG9j.EZ0".data)[1]? = some middle ∧
      base64RawURLDecode (String.mk middle) = some [100, 111, 99]) :=
  jwsSign_token_shape sampleHost { sampleRecord with DecodedPrivateKey := some sampleKey }
    [100, 111, 99] "eyJhbGciOiJSUzUxMiJ9.ZG9j.EZ0" (by decide)

/-! ## The storage location -/

theorem getByNIT_reads_one_location (h : Host) (r : FileCertificateRepository) (nit : String)
    (store : String → ReadFileResult)
    (hsame : store (h.Join r.basePath (nit ++ ".crt")) =
      h.ReadFile (h.Join r.basePath (nit ++ ".crt"))) :
    r.GetByNIT { h with ReadFile := store } nit = r.GetByNIT h nit := by
  simp only [FileCertificateRepository.GetByNIT, hsame, Certificate.DecodePrivateKey,
    KeyProcessor.BytesToPrivateKey]

/-- C15, at a failing input: with the base path certs and the taxpayer
identifier ../backup/00000000, the location that GetByNIT reads is
filepath.Join of the two with the suffix .crt, which is backup/00000000.crt:
the base path is no prefix of it, and GetByNIT returns the certificate stored
there, outside the configured directory.  With an absolute base path the
same happens: /var/certs and ../../etc/passwd give /etc/passwd.crt. -/
theorem getByNIT_location_outside_root :
    sampleRepository.basePath = "certs" ∧
    sampleHost.Join sampleRepository.basePath ("../backup/00000000" ++ ".crt") =
      "backup/00000000.crt" ∧
    ¬ ("certs".data <+: "backup/00000000.crt".data) ∧
    sampleHost.ReadFile "backup/00000000.crt" = .content [1] ∧
    sampleRepository.GetByNIT sampleHost "../backup/00000000" =
      .ok { sampleRecord with DecodedPrivateKey := some sampleKey } ∧
    filepathJoin "/var/certs" ("../../etc/passwd" ++ ".crt") = "/etc/passwd.crt" ∧
    ¬ ("/var/certs".data <+: "/etc/passwd.crt".data) := by
  decide

/-! ## The message of the error envelope -/

theorem createErrorResponse_of_missing_key (h : Host) (uc : DocumentSigningUseCase)
    (e : DomainError) (hcode : e.Code ≠ "813")
    (hmissing : (uc.translator.messages uc.translator.locale).bind
      (fun catalogue => catalogue e.Message) = none) :
    uc.createErrorResponse h (.domain e) = NewErrorResponse e.Code e.Message := by
  rw [createErrorResponse_of_other_code h uc e hcode]
  simp [Translator.T, Translator.Translate, hmissing]

/-- C16, at failing inputs: on the sample host, whose catalogue holds
templates for required_data and cert_not_found only, the message of the error
envelope of Execute is the path of the missing file for the taxpayer 99999999
(code 812), the text of the key parser after its code for the taxpayer
44444444 (code 803), the text of the base64 decoder for the taxpayer 55555555
(code 810) and the text of the XML decoder for the taxpayer 66666666
(code 804): the raw text of the cause, verbatim, and no template. -/
theorem envelope_message_is_raw_text :
    ((fileSigningUseCase sampleHost sampleRepository sampleTranslator).Execute sampleHost
      (sampleInput "99999999" "secret")).result =
        NewErrorResponse "812" "certs/99999999.crt" ∧
    sampleHost.ParsePKCS8PrivateKey [65, 66, 67] = .error "x509: failed to parse private key" ∧
    ((fileSigningUseCase sampleHost sampleRepository sampleTranslator).Execute sampleHost
      (sampleInput "44444444" "secret")).result =
        NewErrorResponse "803" "804: x509: failed to parse private key" ∧
    sampleHost.base64Decode "%%%" = .error "illegal base64 data at input byte 0" ∧
    ((fileSigningUseCase sampleHost sampleRepository sampleTranslator).Execute sampleHost
      (sampleInput "55555555" "secret")).result =
        NewErrorResponse "810" "illegal base64 data at input byte 0" ∧
    sampleHost.xmlUnmarshal [7] = .error "XML syntax error on line 1: unexpected EOF" ∧
    ((fileSigningUseCase sampleHost sampleRepository sampleTranslator).Execute sampleHost
      (sampleInput "66666666" "secret")).result =
        NewErrorResponse "804" "XML syntax error on line 1: unexpected EOF" := by
  decide

/-! ## The bytes that are signed -/

theorem jwsSign_bytes_eq (h : Host) (certificate : Certificate) (key : RSAPrivateKey)
    (documentData : Bytes) (hkey : certificate.DecodedPrivateKey = some key) :
    JWSSigner.Sign h certificate (.bytes documentData) =
      match h.NewSigner key with
      | .error errText => .error (.domain { Code := "804", Message := errText })
      | .ok signer =>
        match h.joseSign signer documentData with
        | .error errText => .error (.domain { Code := "804", Message := errText })
        | .ok object =>
          match h.CompactSerialize object with
          | .error errText => .error (.domain { Code := "804", Message := errText })
          | .ok serialized => .ok serialized := by
  simp only [JWSSigner.Sign, hkey, NewDomainError, CodeUncatalogued]

/-- C21: for every authenticated request (a well-formed request whose
certificate is resolved and whose credential is verified), the bytes handed to
the signer are the UTF-8 bytes of the text when DocumentJSON is a string, the
byte slice itself when it is one, and the output of json.Marshal otherwise;
when json.Marshal fails, SignDocument returns the DomainError with code 810
and the signer is not called.  JWSSigner.Sign, given a byte slice, hands
exactly these bytes to the JOSE signer. -/
theorem signDocument_signed_bytes (h : Host) (s : SigningService)
    (request : CertificateRequest) (certificate : Certificate)
    (hv : request.Validate = true)
    (hget : s.certRepo.GetByNIT request.NIT = .ok certificate)
    (hpw : s.certRepo.VerifyPassword certificate request.PrivateKeyPassword = .ok true) :
    (∀ text, request.DocumentJSON = .string text →
      s.SignDocument h request =
        ⟨[.GetByNIT request.NIT, .VerifyPassword certificate request.PrivateKeyPassword,
          .Sign certificate (.bytes (stringBytes text))],
          s.documentSigner.Sign certificate (.bytes (stringBytes text))⟩) ∧
    (∀ b, request.DocumentJSON = .bytes b →
      s.SignDocument h request =
        ⟨[.GetByNIT request.NIT, .VerifyPassword certificate request.PrivateKeyPassword,
          .Sign certificate (.bytes b)], s.documentSigner.Sign certificate (.bytes b)⟩) ∧
    ((∀ text, request.DocumentJSON ≠ .string text) → (∀ b, request.DocumentJSON ≠ .bytes b) →
      (∀ jsonData, h.jsonMarshal request.DocumentJSON = .ok jsonData →
        s.SignDocument h request =
          ⟨[.GetByNIT request.NIT, .VerifyPassword certificate request.PrivateKeyPassword,
            .Sign certificate (.bytes jsonData)],
            s.documentSigner.Sign certificate (.bytes jsonData)⟩) ∧
      (∀ errText, h.jsonMarshal request.DocumentJSON = .error errText →
        s.SignDocument h request =
          ⟨[.GetByNIT request.NIT, .VerifyPassword certificate request.PrivateKeyPassword],
            .error (.domain { Code := "810", Message := "json_to_string_conversion" })⟩)) ∧
    (∀ (key : RSAPrivateKey) (documentData : Bytes),
      certificate.DecodedPrivateKey = some key →
      JWSSigner.Sign h certificate (.bytes documentData) =
        match h.NewSigner key with
        | .error errText => .error (.domain { Code := "804", Message := errText })
        | .ok signer =>
          match h.joseSign signer documentData with
          | .error errText => .error (.domain { Code := "804", Message := errText })
          | .ok object =>
            match h.CompactSerialize object with
            | .error errText => .error (.domain { Code := "804", Message := errText })
            | .ok serialized => .ok serialized) := by
  have hsd := signDocument_of_verified h s request certificate hv hget hpw
  refine ⟨?_, ?_, ?_, ?_⟩
  · intro text hdoc
    rw [hsd, hdoc]
    rfl
  · intro b hdoc
    rw [hsd, hdoc]
    rfl
  · intro hstring hbytes
    have hmarshal : documentBytes h request.DocumentJSON = h.jsonMarshal request.DocumentJSON := by
      cases hdoc : request.DocumentJSON with
      | string text => exact absurd hdoc (hstring text)
      | bytes b => exact absurd hdoc (hbytes b)
      | nil => rfl
      | composite v => rfl
    rw [hmarshal] at hsd
    constructor
    · intro jsonData hjson
      rw [hsd, hjson]
    · intro errText hjson
      rw [hsd, hjson]
  · intro key documentData hkey
    exact jwsSign_bytes_eq h certificate key documentData hkey

/-- A witness of C21 on the sample host: the text `doc` is signed as its three
bytes, without quotes. -/
theorem signDocument_signed_bytes_witness :
    (fileSigningService sampleHost sampleRepository).SignDocument sampleHost
        (sampleRequest "00000000" "secret") =
      ⟨[.GetByNIT "00000000",
        .VerifyPassword { sampleRecord with DecodedPrivateKey := some sampleKey } "secret",
        .Sign { sampleRecord with DecodedPrivateKey := some sampleKey }
          (.bytes (stringBytes "doc"))],
        (fileSigningService sampleHost sampleRepository).documentSigner.Sign
          { sampleRecord with DecodedPrivateKey := some sampleKey }
          (.bytes (stringBytes "doc"))⟩ ∧
    stringBytes "doc" = [100, 111, 99] :=
  ⟨(signDocument_signed_bytes sampleHost (fileSigningService sampleHost sampleRepository)
      (sampleRequest "00000000" "secret")
      { sampleRecord with DecodedPrivateKey := some sampleKey }
      (by decide) (by decide) (by decide)).1 "doc" rfl,
   by decide⟩

/-! ## Two signatures of one payload -/

theorem jwsSign_middle_segment (h : Host) (certificate : Certificate) (payload : Bytes)
    (token : String) (hsign : JWSSigner.Sign h certificate (.bytes payload) = .ok token) :
    (tokenSegments token.data)[1]? = some (base64RawURLEncode payload).data := by
  obtain ⟨key, signer, object, -, -, hobject, hserial⟩ :=
    jwsSign_bytes_ok h certificate payload token hsign
  have hpayload : object.payload = payload := h.joseSign_payload signer payload object hobject
  rw [h.CompactSerialize_format object token hserial, compactSerialization_segments object,
    hpayload]
  rfl

/-- C22: two successful calls of JWSSigner.Sign on the same payload of bytes,
with the same certificate and so the same key, return tokens with the same middle segment, the base64url
encoding of the payload, which decodes to the payload; this holds whatever
signature bytes the JOSE library produces in each call (the two calls are
taken on two hosts, which may sign differently). -/
theorem jwsSign_payload_segment_stable (h₁ h₂ : Host) (certificate : Certificate)
    (payload : Bytes) (token₁ token₂ : String)
    (hsign₁ : JWSSigner.Sign h₁ certificate (.bytes payload) = .ok token₁)
    (hsign₂ : JWSSigner.Sign h₂ certificate (.bytes payload) = .ok token₂) :
    (tokenSegments token₁.data)[1]? = (tokenSegments token₂.data)[1]? ∧
    (∃ middle, (tokenSegments token₁.data)[1]? = some middle ∧
      (tokenSegments token₂.data)[1]? = some middle ∧
      base64RawURLDecode (String.mk middle) = some payload) := by
  have hm₁ := jwsSign_middle_segment h₁ certificate payload token₁ hsign₁
  have hm₂ := jwsSign_middle_segment h₂ certificate payload token₂ hsign₂
  exact ⟨hm₁.trans hm₂.symm, _, hm₁, hm₂, base64RawURLDecode_encode payload⟩

/-- A witness of C22: the sample host and the second host sign the payload
`doc` with the same key; the tokens differ in the signature, not in the
middle segment. -/
theorem jwsSign_payload_segment_stable_witness :
    JWSSigner.Sign sampleHost { sampleRecord with DecodedPrivateKey := some sampleKey }
        (.bytes [100, 111, 99]) = .ok "eyJhbGciOiJSUzUxMiJ9.ZG9j.EZ0" ∧
    JWSSigner.Sign sampleHostAlt { sampleRecord with DecodedPrivateKey := some sampleKey }
        (.bytes [100, 111, 99]) = .ok "eyJhbGciOiJSUzUxMiJ9.ZG9j.nREH" ∧
    (tokenSegments "eyJhbGciOiJSUzUxMiJ9.ZG9j.EZ0".data)[1]? =
      (tokenSegments "eyJhbGciOiJSUzUxMiJ9.ZG9j.nREH".data)[1]? ∧
    (∃ middle, (tokenSegments "eyJhbGciOiJSUzUxMiJ9.ZG9j.EZ0".data)[1]? = some middle ∧
      (tokenSegments "eyJhbGciOiJSUzUxMiJ9.ZG9j.nREH".data)[1]? = some middle ∧
      base64RawURLDecode (String.mk middle) = some [100, 111, 99]) :=
  have hw := jwsSign_payload_segment_stable sampleHost sampleHostAlt
    { sampleRecord with DecodedPrivateKey := some sampleKey } [100, 111, 99]
    "eyJhbGciOiJSUzUxMiJ9.ZG9j.EZ0" "eyJhbGciOiJSUzUxMiJ9.ZG9j.nREH" (by decide) (by decide)
  ⟨by decide, by decide, hw.1, hw.2⟩

/-! ## The two envelopes and the HTTP status -/

theorem createErrorResponse_shape (h : Host) (uc : DocumentSigningUseCase) (err : GoError) :
    ∃ code message, uc.createErrorResponse h err = NewErrorResponse code message := by
  cases err with
  | other text => exact ⟨_, _, rfl⟩
  | domain e => exact ⟨_, _, rfl⟩

theorem execute_result_cases (h : Host) (uc : DocumentSigningUseCase)
    (input : DocumentSigningInput) :
    (DocumentSigningUseCase.validateInput input = true ∧
      ∃ token, (uc.signingService (requestOf input)).result = .ok token ∧
        (uc.Execute h input).result = NewSuccessResponse token) ∨
    (¬ (DocumentSigningUseCase.validateInput input = true ∧
        ∃ token, (uc.signingService (requestOf input)).result = .ok token) ∧
      ∃ code message, (uc.Execute h input).result = NewErrorResponse code message) := by
  rcases hv : DocumentSigningUseCase.validateInput input with _ | _
  · right
    rw [execute_of_malformed h uc input hv]
    refine ⟨by simp, ?_⟩
    dsimp only
    exact createErrorResponse_shape h uc _
  rcases hsign : (uc.signingService (requestOf input)).result with err | token
  · right
    rw [execute_of_sign_error h uc input err hv hsign]
    refine ⟨by simp, ?_⟩
    dsimp only
    exact createErrorResponse_shape h uc _
  · left
    rw [execute_of_sign_ok h uc input token hv hsign]
    exact ⟨rfl, token, rfl, rfl⟩

/-- C23: for every input, Execute returns a nil error and a response in
exactly one of two buckets: Status OK with the token string as Body, exactly
when the validation of the input passed and SignDocument returned no error;
otherwise Status error with an ErrorBody of a code and a message.
SignHandler.Handle, for a body that decodes, answers 200 exactly when the
Status of that response is OK and 400 otherwise, with the response as body;
for a body that does not decode it answers 400; it never answers 500. -/
theorem execute_two_buckets (h : Host) (w : WebHost) (sh : SignHandler)
    (input : DocumentSigningInput) (body : Bytes) :
    (sh.documentSigningUseCase.executeResults h input).2 = none ∧
    (sh.documentSigningUseCase.executeResults h input).1 =
      (sh.documentSigningUseCase.Execute h input).result ∧
    ((sh.documentSigningUseCase.Execute h input).result.Status = "OK" ↔
      DocumentSigningUseCase.validateInput input = true ∧
        ∃ token, (sh.documentSigningUseCase.signingService (requestOf input)).result =
          .ok token) ∧
    (∀ token, DocumentSigningUseCase.validateInput input = true →
      (sh.documentSigningUseCase.signingService (requestOf input)).result = .ok token →
      (sh.documentSigningUseCase.Execute h input).result =
        { Status := "OK", Body := .data token }) ∧
    ((sh.documentSigningUseCase.Execute h input).result.Status ≠ "OK" →
      ∃ code message, (sh.documentSigningUseCase.Execute h input).result =
        { Status := "error", Body := .errorBody { Code := code, Message := message } }) ∧
    (w.decodeInput body = .ok input →
      ((sh.Handle h w body).statusCode = 200 ↔
        (sh.documentSigningUseCase.Execute h input).result.Status = "OK") ∧
      ((sh.documentSigningUseCase.Execute h input).result.Status ≠ "OK" →
        (sh.Handle h w body).statusCode = 400) ∧
      (sh.Handle h w body).body = .response (sh.documentSigningUseCase.Execute h input).result) ∧
    ((∃ errText, w.decodeInput body = .error errText) →
      (sh.Handle h w body).statusCode = 400) ∧
    (sh.Handle h w body).statusCode ≠ 500 := by
  have hhandle : ∀ input', w.decodeInput body = .ok input' →
      sh.Handle h w body =
        { contentType := "application/json",
          statusCode := if (sh.documentSigningUseCase.Execute h input').result.Status != "OK"
            then 400 else 200,
          body := .response (sh.documentSigningUseCase.Execute h input').result } := by
    intro input' hdecode
    simp only [SignHandler.Handle, hdecode, DocumentSigningUseCase.executeResults,
      StatusBadRequest, StatusOK]
  refine ⟨rfl, rfl, ?_, ?_, ?_, ?_, ?_, ?_⟩
  · rcases execute_result_cases h sh.documentSigningUseCase input with
      ⟨hv, token, hsign, hres⟩ | ⟨hnot, code, message, hres⟩
    · rw [hres]
      exact ⟨fun _ => ⟨hv, token, hsign⟩, fun _ => rfl⟩
    · rw [hres]
      exact ⟨fun hok => absurd hok (by simp [NewErrorResponse]), fun hyes => absurd hyes hnot⟩
  · intro token hv hsign
    rw [execute_of_sign_ok h sh.documentSigningUseCase input token hv hsign]
    rfl
  · intro hstatus
    rcases execute_result_cases h sh.documentSigningUseCase input with
      ⟨-, token, -, hres⟩ | ⟨-, code, message, hres⟩
    · rw [hres] at hstatus
      exact absurd rfl hstatus
    · exact ⟨code, message, hres⟩
  · intro hdecode
    rw [hhandle input hdecode]
    by_cases hok : (sh.documentSigningUseCase.Execute h input).result.Status = "OK"
    · simp [hok]
    · simp [hok]
  · rintro ⟨errText, hdecode⟩
    simp [SignHandler.Handle, hdecode, StatusBadRequest]
  · rcases hdecode : w.decodeInput body with errText | input'
    · simp [SignHandler.Handle, hdecode, StatusBadRequest]
    · rw [hhandle input' hdecode]
      by_cases hok : (sh.documentSigningUseCase.Execute h input').result.Status = "OK"
      · simp [hok]
      · simp [hok]

/-- A witness of C23 on the sample host: the right credential is answered
with 200, the wrong one with 400. -/
theorem execute_two_buckets_witness :
    (sampleHandler.Handle sampleHost sampleWebHost [1]).statusCode = 200 ∧
    (sampleHandler.documentSigningUseCase.Execute sampleHost
      (sampleInput "00000000" "secret")).result.Status = "OK" ∧
    (sampleHandler.Handle sampleHost sampleWebHost [2]).statusCode = 400 ∧
    (sampleHandler.Handle sampleHost sampleWebHost [9]).statusCode = 400 :=
  have hok := execute_two_buckets sampleHost sampleWebHost sampleHandler
    (sampleInput "00000000" "secret") [1]
  have hbad := execute_two_buckets sampleHost sampleWebHost sampleHandler
    (sampleInput "00000000" "wrong") [2]
  have hnone := execute_two_buckets sampleHost sampleWebHost sampleHandler
    (sampleInput "00000000" "wrong") [9]
  ⟨(hok.2.2.2.2.2.1 (by decide)).1.mpr (by decide), by decide,
   (hbad.2.2.2.2.2.1 (by decide)).2.1 (by decide),
   hnone.2.2.2.2.2.2.1 ⟨"unexpected end of JSON input", by decide⟩⟩

/-! ## The two validations -/

theorem validateInput_iff (input : DocumentSigningInput) :
    DocumentSigningUseCase.validateInput input = true ↔
      SpecWellFormed input.NIT input.PrivateKeyPassword input.DocumentJSON := by
  simp [DocumentSigningUseCase.validateInput, SpecWellFormed, notNil_iff, and_assoc]

theorem signDocument_calls_of_valid (h : Host) (s : SigningService)
    (request : CertificateRequest) (hv : request.Validate = true) :
    (s.SignDocument h request).calls.head? = some (.GetByNIT request.NIT) ∧
    ∀ inner, Call.SignDocument inner ∉ (s.SignDocument h request).calls := by
  rcases signDocument_cases h s request with ⟨hbad, -⟩ | ⟨-, e, -, hsd⟩ | ⟨-, c, e, -, -, hsd⟩ |
    ⟨-, c, -, -, hsd⟩ | ⟨-, c, t, -, -, -, hsd⟩ | ⟨-, c, d, -, -, -, hsd⟩
  · rw [hv] at hbad
    exact absurd hbad (by simp)
  all_goals
    rw [hsd]
    exact ⟨rfl, fun inner hmem => by simp at hmem⟩

/-- C24: for every input, validateInput gives the same boolean as Validate on
the request that Execute builds from it: both hold exactly when the NIT and
the PrivateKeyPassword are not empty and DocumentJSON is not nil (the
invariant of the specification), and the request has these three fields of
the input unchanged.  Hence a request that Execute hands to SignDocument is
that request, is valid, and makes SignDocument start with GetByNIT instead of
taking its RequiredData branch; and a malformed input is answered by Execute
with the code 809 without any call of the signing service. -/
theorem validateInput_refines_validate (h : Host) (s : SigningService) (t : Translator)
    (input : DocumentSigningInput) :
    DocumentSigningUseCase.validateInput input = (requestOf input).Validate ∧
    (DocumentSigningUseCase.validateInput input = true ↔
      SpecWellFormed input.NIT input.PrivateKeyPassword input.DocumentJSON) ∧
    ((requestOf input).Validate = true ↔
      SpecWellFormed (requestOf input).NIT (requestOf input).PrivateKeyPassword
        (requestOf input).DocumentJSON) ∧
    ((requestOf input).NIT = input.NIT ∧
      (requestOf input).PrivateKeyPassword = input.PrivateKeyPassword ∧
      (requestOf input).DocumentJSON = input.DocumentJSON) ∧
    (∀ request, Call.SignDocument request ∈
        (DocumentSigningUseCase.Execute h
          { signingService := s.SignDocument h, translator := t } input).calls →
      request = requestOf input ∧ request.Validate = true ∧
      (s.SignDocument h request).calls.head? = some (.GetByNIT request.NIT)) ∧
    (DocumentSigningUseCase.validateInput input = false →
      (DocumentSigningUseCase.Execute h
        { signingService := s.SignDocument h, translator := t } input).calls = [] ∧
      (DocumentSigningUseCase.Execute h
        { signingService := s.SignDocument h, translator := t } input).result.errorCode =
          some "809") := by
  refine ⟨rfl, validateInput_iff input, validateInput_iff input, ⟨rfl, rfl, rfl⟩, ?_, ?_⟩
  · intro request hcall
    rcases hv : DocumentSigningUseCase.validateInput input with _ | _
    · rw [execute_of_malformed h _ input hv] at hcall
      simp at hcall
    · have hvalid : (requestOf input).Validate = true := hv
      have hinner := signDocument_calls_of_valid h s (requestOf input) hvalid
      have hcalls : (DocumentSigningUseCase.Execute h
          { signingService := s.SignDocument h, translator := t } input).calls =
          .SignDocument (requestOf input) :: (s.SignDocument h (requestOf input)).calls := by
        rcases hsign : (s.SignDocument h (requestOf input)).result with err | token
        · rw [execute_of_sign_error h _ input err hv hsign]
        · rw [execute_of_sign_ok h _ input token hv hsign]
      rw [hcalls, List.mem_cons] at hcall
      rcases hcall with heq | hmem
      · have hreq : request = requestOf input := by simpa using heq
        rw [hreq]
        exact ⟨rfl, hvalid, hinner.1⟩
      · exact absurd hmem (hinner.2 request)
  · intro hv
    rw [execute_of_malformed h _ input hv]
    exact ⟨rfl, errorCode_createErrorResponse h _ _⟩

/-- A witness of C24 on the sample host: an input without credential is
refused with 809 and no call; a complete one reaches SignDocument once. -/
theorem validateInput_refines_validate_witness :
    (DocumentSigningUseCase.Execute sampleHost
      { signingService := (fileSigningService sampleHost sampleRepository).SignDocument sampleHost,
        translator := sampleTranslator } (sampleInput "00000000" "")).calls = [] ∧
    (DocumentSigningUseCase.Execute sampleHost
      { signingService := (fileSigningService sampleHost sampleRepository).SignDocument sampleHost,
        translator := sampleTranslator } (sampleInput "00000000" "")).result.errorCode =
          some "809" ∧
    (DocumentSigningUseCase.Execute sampleHost
      { signingService := (fileSigningService sampleHost sampleRepository).SignDocument sampleHost,
        translator := sampleTranslator } (sampleInput "00000000" "secret")).calls.head? =
          some (.SignDocument (requestOf (sampleInput "00000000" "secret"))) :=
  have hw := (validateInput_refines_validate sampleHost
    (fileSigningService sampleHost sampleRepository) sampleTranslator
    (sampleInput "00000000" "")).2.2.2.2.2 (by decide)
  ⟨hw.1, hw.2, by decide⟩

end Firmador
